import Mathlib

/-!
# Task manager: primary store, read cache and audit log coordination

A shallow embedding of the task-manager service (`internal/model`,
`internal/repository`, `internal/service`).

The three external services are modelled by their observable effect:

* PostgreSQL (`pgxpool.Pool`) is the list of rows of the `tasks` table;
* Redis (`redis.Client`) is an association list from keys to stored bytes;
* MongoDB (`mongo.Collection`) is the list of inserted activity entries.

Every call to a driver either takes effect or fails; whether it fails is
decided by the environment (`Env`), which also supplies the readings of
`time.Now()` and the random bits of `uuid.New()`.  A function of the source
becomes a function from an environment and a `World` to its Go results and
the next `World`.  Go results keep their shape: `(*Task, error)` is
`Option Task × Option GoError`.  The world carries a trace of the driver
calls and logger lines so that "performs no read" can be stated.
`go func() ...` appends a job to `World.pending`; a job runs at a later,
separate step (`runAuditJob`).

Go `int` is the 64-bit two's complement integer (`wrapInt64`).
-/

namespace TaskManager

/-! ## internal/model/task.go -/

/-- Instants (`time.Time`), in microseconds, the resolution of `TIMESTAMP WITH TIME ZONE`. -/
abbrev Time := Nat

/-- Task represents a task in the system. -/
structure Task where
  ID : String
  Title : String
  Description : String
  Status : String
  Priority : String
  CreatedAt : Time
  UpdatedAt : Time
deriving DecidableEq, Repr

/-- TaskCreateRequest represents a request to create a task. -/
structure TaskCreateRequest where
  Title : String
  Description : String
  Priority : String
deriving DecidableEq, Repr

/-- TaskUpdateRequest: every field is a `*string`, `none` being the nil pointer. -/
structure TaskUpdateRequest where
  Title : Option String
  Description : Option String
  Status : Option String
  Priority : Option String
deriving DecidableEq, Repr

/-- TaskListResponse wraps a list of tasks; `Data` is a Go slice, `none` being the nil slice. -/
structure TaskListResponse where
  Data : Option (List Task)
  Total : Int
  Page : Int
  PerPage : Int
deriving DecidableEq, Repr

/-- ActivityLog represents an activity log entry stored in MongoDB. -/
structure ActivityLog where
  ID : String
  TaskID : String
  Action : String
  Details : String
  Timestamp : Time
deriving DecidableEq, Repr

/-! ## Go values -/

/-- Go `error` values that occur in the service. -/
inductive GoError where
  /-- the sentinel `redis.Nil`: the key does not exist -/
  | redisNil
  /-- the sentinel `pgx.ErrNoRows`: the query returned no row -/
  | pgxNoRows
  /-- any other failure reported by a driver or library (connectivity, constraint, decoding) -/
  | driver (msg : String)
  /-- `fmt.Errorf(msg)` without a wrapped error -/
  | errorf (msg : String)
  /-- `fmt.Errorf(msg + ": %w", inner)` -/
  | wrap (msg : String) (inner : GoError)
  /-- the run-time panic of dereferencing a nil pointer -/
  | nilDeref
deriving DecidableEq, Repr

/-- Go `int`: reduction of an integer to 64-bit two's complement. -/
def wrapInt64 (x : Int) : Int :=
  (x + 2 ^ 63) % 2 ^ 64 - 2 ^ 63

/-! ## The environment and the world -/

/-- What the environment decides during one call into the service: the random
bits of `uuid.New()`, the successive readings of `time.Now()`, and for each
driver call whether it fails (`some msg`) or takes effect (`none`). -/
structure Env where
  rand : Nat
  now : Nat → Time
  pgInsert : Option String
  pgSelect : Option String
  pgCount : Option String
  pgQuery : Option String
  pgScan : Option String
  pgUpdate : Option String
  pgDelete : Option String
  redisGet : Option String
  redisSet : Option String
  redisDel : Option String
  mongoInsert : Option String
  mongoFind : Option String
  mongoDecode : Option String

/-- Calls to the drivers and lines written to the logger, in program order. -/
inductive Event where
  | pgInsert (id : String)
  | pgSelect (id : String)
  | pgCount (status : String)
  | pgQuery (status : String) (limit offset : Int)
  | pgUpdate (id : String)
  | pgDelete (id : String)
  | redisGet (key : String)
  | redisSet (key : String)
  | redisDel (key : String)
  | mongoInsert (taskID action : String)
  | mongoFind (taskID : String) (limit : Int)
  | spawn (taskID action : String)
  | warn (msg : String)
  | debug (msg : String)
deriving DecidableEq, Repr

/-- One entry of the Redis keyspace: key, stored bytes, time-to-live in seconds. -/
structure CacheEntry (β : Type) where
  key : String
  data : β
  ttl : Nat
deriving DecidableEq, Repr

/-- A detached goroutine that will call `LogActivity(taskID, action, details)`. -/
structure AuditJob where
  taskID : String
  action : String
  details : String
deriving DecidableEq, Repr

/-- The state of the three stores, the goroutines not yet run, and the trace.
`β` is the type of the bytes held by Redis. -/
structure World (β : Type) where
  tasks : List Task
  cache : List (CacheEntry β)
  logs : List ActivityLog
  pending : List AuditJob
  trace : List Event

/-- The JSON encoding of tasks (`encoding/json`) over the bytes `β`. -/
structure Codec (β : Type) where
  marshal : Task → Except GoError β
  unmarshal : β → Except GoError Task

variable {β : Type}

/-- Append one event to the trace. -/
def World.record (w : World β) (e : Event) : World β :=
  { w with trace := w.trace ++ [e] }

/-- The call `s.logger.Warn(msg, ...)`. -/
def World.warn (w : World β) (msg : String) : World β :=
  w.record (.warn msg)

/-- The call `s.logger.Debug(msg, ...)`. -/
def World.debug (w : World β) (msg : String) : World β :=
  w.record (.debug msg)

/-! ## github.com/google/uuid -/

/-- Lower-case hexadecimal digit of `n % 16`. -/
def hexDigit (n : Nat) : Char :=
  match n % 16 with
  | 0 => '0' | 1 => '1' | 2 => '2' | 3 => '3' | 4 => '4' | 5 => '5' | 6 => '6' | 7 => '7'
  | 8 => '8' | 9 => '9' | 10 => 'a' | 11 => 'b' | 12 => 'c' | 13 => 'd' | 14 => 'e' | _ => 'f'

/-- Two hexadecimal digits of a byte. -/
def hexByte (b : Nat) : List Char :=
  [hexDigit (b / 16), hexDigit b]

/-- The `i`-th of the 16 bytes of a version 4 UUID drawn from the random bits `r`
(version nibble in byte 6, variant bits in byte 8). -/
def uuidByte (r : Nat) (i : Nat) : Nat :=
  let b := (r / 256 ^ i) % 256
  if i = 6 then b % 16 + 64 else if i = 8 then b % 64 + 128 else b

/-- The string `uuid.New().String()`: the form xxxxxxxx-xxxx-xxxx-xxxx-xxxxxxxxxxxx. -/
def uuidString (r : Nat) : String :=
  let hex := fun (is : List Nat) => (is.map (fun i => hexByte (uuidByte r i))).flatten
  String.mk (hex [0, 1, 2, 3] ++ '-' :: hex [4, 5] ++ '-' :: hex [6, 7] ++ '-' :: hex [8, 9]
    ++ '-' :: hex [10, 11, 12, 13, 14, 15])

/-! ## The PostgreSQL driver on the `tasks` table -/

/-- Statement `INSERT INTO tasks ... RETURNING ...`: fails on a driver failure or when the
primary key `id` is already present; otherwise stores the row and returns it. -/
def pgInsertReturning (fault : Option String) (w : World β) (t : Task) :
    Except GoError Task × World β :=
  let w1 := w.record (.pgInsert t.ID)
  match fault with
  | some msg => (.error (.driver msg), w1)
  | none =>
    if w1.tasks.any (fun r => r.ID == t.ID) then
      (.error (.driver "duplicate key value violates unique constraint"), w1)
    else
      (.ok t, { w1 with tasks := w1.tasks ++ [t] })

/-- Statement `SELECT ... FROM tasks WHERE id = $1` scanned by `QueryRow(...).Scan`. -/
def pgSelectByID (fault : Option String) (w : World β) (id : String) :
    Except GoError Task × World β :=
  let w1 := w.record (.pgSelect id)
  match fault with
  | some msg => (.error (.driver msg), w1)
  | none =>
    match w1.tasks.find? (fun r => r.ID == id) with
    | none => (.error .pgxNoRows, w1)
    | some row => (.ok row, w1)

/-- The rows selected by the optional `WHERE status = $1`. -/
def whereStatus (status : String) (rows : List Task) : List Task :=
  if status != "" then rows.filter (fun r => r.Status == status) else rows

/-- Statement `SELECT COUNT(*) FROM tasks [WHERE status = $1]`. -/
def pgCount (fault : Option String) (w : World β) (status : String) :
    Except GoError Int × World β :=
  let w1 := w.record (.pgCount status)
  match fault with
  | some msg => (.error (.driver msg), w1)
  | none => (.ok ((whereStatus status w1.tasks).length : Int), w1)

/-- Clause `ORDER BY created_at DESC` (rows with equal `created_at` keep their table order). -/
def orderByCreatedAtDesc (rows : List Task) : List Task :=
  rows.insertionSort (fun a b => b.CreatedAt ≤ a.CreatedAt)

/-- The result set `pgx.Rows` of a query: the rows that `rows.Next()` delivers, and
the error that `rows.Err()` holds once they are exhausted. -/
structure PgRows where
  rows : List Task
  err : Option GoError
deriving DecidableEq, Repr

/-- Statement `SELECT ... FROM tasks [WHERE status = $1] ORDER BY created_at DESC LIMIT l OFFSET o`
sent by `pool.Query`.  `pool.Query` returns an error only when the query cannot be
sent.  PostgreSQL rejects a negative LIMIT or OFFSET when it executes the
statement: the result set then delivers no row and holds the error in
`rows.Err()`. -/
def pgQueryPage (fault : Option String) (w : World β) (status : String) (limit offset : Int) :
    Except GoError PgRows × World β :=
  let w1 := w.record (.pgQuery status limit offset)
  match fault with
  | some msg => (.error (.driver msg), w1)
  | none =>
    if limit < 0 then (.ok ⟨[], some (.driver "LIMIT must not be negative")⟩, w1)
    else if offset < 0 then (.ok ⟨[], some (.driver "OFFSET must not be negative")⟩, w1)
    else
      (.ok ⟨((orderByCreatedAtDesc (whereStatus status w1.tasks)).drop offset.toNat).take
        limit.toNat, none⟩, w1)

/-- Statement `UPDATE tasks SET ... WHERE id = $6 RETURNING ...` scanned by `QueryRow(...).Scan`. -/
def pgUpdateReturning (fault : Option String) (w : World β) (id : String)
    (title description status priority : String) (updatedAt : Time) :
    Except GoError Task × World β :=
  let w1 := w.record (.pgUpdate id)
  match fault with
  | some msg => (.error (.driver msg), w1)
  | none =>
    let set := fun (r : Task) =>
      if r.ID == id then
        { r with Title := title, Description := description, Status := status,
                 Priority := priority, UpdatedAt := updatedAt }
      else r
    let rows := w1.tasks.map set
    match rows.find? (fun r => r.ID == id) with
    | none => (.error .pgxNoRows, w1)
    | some row => (.ok row, { w1 with tasks := rows })

/-- Statement `DELETE FROM tasks WHERE id = $1`: returns `RowsAffected()`. -/
def pgExecDelete (fault : Option String) (w : World β) (id : String) :
    Except GoError Nat × World β :=
  let w1 := w.record (.pgDelete id)
  match fault with
  | some msg => (.error (.driver msg), w1)
  | none =>
    (.ok (w1.tasks.countP (fun r => r.ID == id)),
      { w1 with tasks := w1.tasks.filter (fun r => !(r.ID == id)) })

/-! ## The Redis driver -/

/-- The call `client.Get(ctx, key).Bytes()`. -/
def redisGet (fault : Option String) (w : World β) (key : String) :
    Except GoError β × World β :=
  let w1 := w.record (.redisGet key)
  match fault with
  | some msg => (.error (.driver msg), w1)
  | none =>
    match w1.cache.find? (fun e => e.key == key) with
    | none => (.error .redisNil, w1)
    | some e => (.ok e.data, w1)

/-- The call `client.Set(ctx, key, data, ttl).Err()`: overwrites any entry under the key. -/
def redisSet (fault : Option String) (w : World β) (key : String) (data : β) (ttl : Nat) :
    Option GoError × World β :=
  let w1 := w.record (.redisSet key)
  match fault with
  | some msg => (some (.driver msg), w1)
  | none =>
    (none, { w1 with cache := ⟨key, data, ttl⟩ :: w1.cache.filter (fun e => !(e.key == key)) })

/-- The call `client.Del(ctx, key).Err()`: deleting an absent key is not an error. -/
def redisDel (fault : Option String) (w : World β) (key : String) :
    Option GoError × World β :=
  let w1 := w.record (.redisDel key)
  match fault with
  | some msg => (some (.driver msg), w1)
  | none => (none, { w1 with cache := w1.cache.filter (fun e => !(e.key == key)) })

/-- Expiry of a key, a step of the Redis server. -/
def redisExpire (w : World β) (key : String) : World β :=
  { w with cache := w.cache.filter (fun e => !(e.key == key)) }

/-! ## internal/repository/postgres_repo.go -/

/-- PostgresRepository.Create inserts a new task. -/
def PostgresRepository.Create (env : Env) (w : World β) (req : TaskCreateRequest) :
    (Option Task × Option GoError) × World β :=
  let task : Task :=
    { ID := uuidString env.rand
      Title := req.Title
      Description := req.Description
      Status := "pending"
      Priority := req.Priority
      CreatedAt := env.now 0
      UpdatedAt := env.now 1 }
  let task := if task.Priority = "" then { task with Priority := "medium" } else task
  match pgInsertReturning env.pgInsert w task with
  | (.error err, w1) => ((none, some (.wrap "failed to create task" err)), w1)
  | (.ok row, w1) => ((some row, none), w1)

/-- PostgresRepository.GetByID retrieves a task by its ID. -/
def PostgresRepository.GetByID (env : Env) (w : World β) (id : String) :
    (Option Task × Option GoError) × World β :=
  match pgSelectByID env.pgSelect w id with
  | (.error err, w1) => ((none, some (.wrap "task not found" err)), w1)
  | (.ok task, w1) => ((some task, none), w1)

/-- The loop `for rows.Next() ... rows.Scan ... tasks = append(tasks, t)`, from a
slice `acc` (`none` is the nil slice). -/
def scanRows (fault : Option String) : List Task → Option (List Task) →
    Except GoError (Option (List Task))
  | [], acc => .ok acc
  | t :: rest, acc =>
    match fault with
    | some msg => .error (.wrap "failed to scan task" (.driver msg))
    | none => scanRows fault rest (some (acc.getD [] ++ [t]))

/-- PostgresRepository.List retrieves paginated tasks. -/
def PostgresRepository.List (env : Env) (w : World β) (page perPage : Int) (status : String) :
    (Option (List Task) × Int × Option GoError) × World β :=
  let page := if page < 1 then 1 else page
  let perPage := if perPage < 1 ∨ perPage > 100 then 20 else perPage
  let offset := wrapInt64 (wrapInt64 (page - 1) * perPage)
  match pgCount env.pgCount w status with
  | (.error err, w1) => ((none, 0, some (.wrap "failed to count tasks" err)), w1)
  | (.ok total, w1) =>
    match pgQueryPage env.pgQuery w1 status perPage offset with
    | (.error err, w2) => ((none, 0, some (.wrap "failed to list tasks" err)), w2)
    | (.ok rows, w2) =>
      -- the loop reads `rows.Next()` and `rows.Scan`; `rows.Err()` is never read
      match scanRows env.pgScan rows.rows none with
      | .error err => ((none, 0, some err), w2)
      | .ok tasks => ((tasks, total, none), w2)

/-- PostgresRepository.Update modifies an existing task. -/
def PostgresRepository.Update (env : Env) (w : World β) (id : String) (req : TaskUpdateRequest) :
    (Option Task × Option GoError) × World β :=
  match PostgresRepository.GetByID env w id with
  | ((_, some err), w1) => ((none, some err), w1)
  | ((none, none), w1) => ((none, some .nilDeref), w1)
  | ((some existing, none), w1) =>
    let existing := match req.Title with
      | some v => { existing with Title := v }
      | none => existing
    let existing := match req.Description with
      | some v => { existing with Description := v }
      | none => existing
    let existing := match req.Status with
      | some v => { existing with Status := v }
      | none => existing
    let existing := match req.Priority with
      | some v => { existing with Priority := v }
      | none => existing
    let existing := { existing with UpdatedAt := env.now 0 }
    match pgUpdateReturning env.pgUpdate w1 id existing.Title existing.Description
        existing.Status existing.Priority existing.UpdatedAt with
    | (.error err, w2) => ((none, some (.wrap "failed to update task" err)), w2)
    | (.ok task, w2) => ((some task, none), w2)

/-- PostgresRepository.Delete removes a task by ID. -/
def PostgresRepository.Delete (env : Env) (w : World β) (id : String) :
    Option GoError × World β :=
  match pgExecDelete env.pgDelete w id with
  | (.error err, w1) => (some (.wrap "failed to delete task" err), w1)
  | (.ok rowsAffected, w1) =>
    if rowsAffected = 0 then (some (.errorf "task not found"), w1)
    else (none, w1)

/-! ## internal/repository/redis_cache.go -/

/-- The constant taskCachePrefix. -/
def taskCachePrefix : String := "task:"

/-- The constant taskCacheTTL: 5 minutes, in seconds. -/
def taskCacheTTL : Nat := 5 * 60

/-- RedisCache.GetTask retrieves a cached task. -/
def RedisCache.GetTask (js : Codec β) (env : Env) (w : World β) (id : String) :
    (Option Task × Option GoError) × World β :=
  let key := taskCachePrefix ++ id
  match redisGet env.redisGet w key with
  | (.error .redisNil, w1) => ((none, none), w1)
  | (.error err, w1) => ((none, some (.wrap "failed to get cached task" err)), w1)
  | (.ok data, w1) =>
    match js.unmarshal data with
    | .error err => ((none, some (.wrap "failed to unmarshal cached task" err)), w1)
    | .ok task => ((some task, none), w1)

/-- RedisCache.SetTask caches a task. -/
def RedisCache.SetTask (js : Codec β) (env : Env) (w : World β) (task : Task) :
    Option GoError × World β :=
  let key := taskCachePrefix ++ task.ID
  match js.marshal task with
  | .error err => (some (.wrap "failed to marshal task" err), w)
  | .ok data => redisSet env.redisSet w key data taskCacheTTL

/-- RedisCache.InvalidateTask removes a task from cache. -/
def RedisCache.InvalidateTask (env : Env) (w : World β) (id : String) :
    Option GoError × World β :=
  let key := taskCachePrefix ++ id
  redisDel env.redisDel w key

/-! ## internal/repository/mongo_repo.go -/

/-- A `time.Time` as BSON stores it: a datetime in milliseconds, the instant
truncated to the millisecond. -/
def bsonDateTime (t : Time) : Time :=
  t / 1000 * 1000

/-- The call `collection.InsertOne(ctx, log)`: the server assigns the `_id`, and
the timestamp is stored as a BSON datetime. -/
def mongoInsertOne (fault : Option String) (w : World β) (log : ActivityLog) :
    Option GoError × World β :=
  let w1 := w.record (.mongoInsert log.TaskID log.Action)
  match fault with
  | some msg => (some (.driver msg), w1)
  | none =>
    (none, { w1 with
      logs := w1.logs ++ [{ log with
        ID := toString w1.logs.length, Timestamp := bsonDateTime log.Timestamp }] })

/-- MongoRepository.LogActivity records an activity log entry. -/
def MongoRepository.LogActivity (env : Env) (w : World β) (taskID action details : String) :
    Option GoError × World β :=
  let log : ActivityLog :=
    { ID := ""
      TaskID := taskID
      Action := action
      Details := details
      Timestamp := env.now 0 }
  match mongoInsertOne env.mongoInsert w log with
  | (some err, w1) => (some (.wrap "failed to log activity" err), w1)
  | (none, w1) => (none, w1)

/-- The statement `go func() ...` of the service: the goroutine is recorded and
runs later. -/
def World.spawn (w : World β) (job : AuditJob) : World β :=
  { (w.record (.spawn job.taskID job.action)) with pending := w.pending ++ [job] }

/-- One scheduling step: the `k`-th pending goroutine runs its body,
`LogActivity`, and logs a warning when that fails. -/
def runAuditJob (env : Env) (w : World β) (k : Nat) : World β :=
  match w.pending.get? k with
  | none => w
  | some job =>
    let w1 := { w with pending := w.pending.eraseIdx k }
    match MongoRepository.LogActivity env w1 job.taskID job.action job.details with
    | (some _, w2) => w2.warn "failed to log activity"
    | (none, w2) => w2

/-! ## internal/service/task_service.go -/

/-- The apostrophe of the audit messages. -/
def quote : String := "\x27"

/-- TaskService.Create creates a new task and logs the activity. -/
def TaskService.Create (js : Codec β) (env : Env) (w : World β) (req : TaskCreateRequest) :
    (Option Task × Option GoError) × World β :=
  match PostgresRepository.Create env w req with
  | ((_, some err), w1) => ((none, some (.wrap "service: create task" err)), w1)
  | ((none, none), w1) => ((none, some .nilDeref), w1)
  | ((some task, none), w1) =>
    -- Cache the new task
    let (cacheErr, w2) := RedisCache.SetTask js env w1 task
    let w3 := if cacheErr.isSome then w2.warn "failed to cache new task" else w2
    -- Log activity to MongoDB (non-blocking)
    let w4 := w3.spawn
      { taskID := task.ID
        action := "created"
        details := "Task " ++ quote ++ task.Title ++ quote ++ " created with priority "
          ++ task.Priority }
    ((some task, none), w4)

/-- TaskService.GetByID retrieves a task by ID with cache-aside pattern. -/
def TaskService.GetByID (js : Codec β) (env : Env) (w : World β) (id : String) :
    (Option Task × Option GoError) × World β :=
  -- Try cache first
  let ((cached, err), w1) := RedisCache.GetTask js env w id
  let w2 := if err.isSome then w1.warn "cache lookup failed" else w1
  match cached with
  | some c => ((some c, none), w2.debug "cache hit")
  | none =>
    -- Cache miss: fetch from PostgreSQL
    match PostgresRepository.GetByID env w2 id with
    | ((_, some err), w3) => ((none, some (.wrap "service: get task" err)), w3)
    | ((none, none), w3) => ((none, some .nilDeref), w3)
    | ((some task, none), w3) =>
      -- Populate cache
      let (cacheErr, w4) := RedisCache.SetTask js env w3 task
      let w5 := if cacheErr.isSome then w4.warn "failed to cache task" else w4
      ((some task, none), w5)

/-- TaskService.List retrieves paginated tasks. -/
def TaskService.List (env : Env) (w : World β) (page perPage : Int) (status : String) :
    (Option TaskListResponse × Option GoError) × World β :=
  match PostgresRepository.List env w page perPage status with
  | ((_, _, some err), w1) => ((none, some (.wrap "service: list tasks" err)), w1)
  | ((tasks, total, none), w1) =>
    let tasks := if tasks = none then some [] else tasks
    ((some { Data := tasks, Total := total, Page := page, PerPage := perPage }, none), w1)

/-- TaskService.Update modifies a task and invalidates its cache. -/
def TaskService.Update (js : Codec β) (env : Env) (w : World β) (id : String)
    (req : TaskUpdateRequest) : (Option Task × Option GoError) × World β :=
  match PostgresRepository.Update env w id req with
  | ((_, some err), w1) => ((none, some (.wrap "service: update task" err)), w1)
  | ((none, none), w1) => ((none, some .nilDeref), w1)
  | ((some task, none), w1) =>
    -- Invalidate and recache
    let (cacheErr, w2) := RedisCache.InvalidateTask env w1 id
    let w3 := if cacheErr.isSome then w2.warn "failed to invalidate cache" else w2
    let (cacheErr, w4) := RedisCache.SetTask js env w3 task
    let w5 := if cacheErr.isSome then w4.warn "failed to recache task" else w4
    -- Log activity
    let w6 := w5.spawn
      { taskID := id
        action := "updated"
        details := "Task " ++ quote ++ task.Title ++ quote ++ " updated" }
    ((some task, none), w6)

/-- TaskService.Delete removes a task. -/
def TaskService.Delete (env : Env) (w : World β) (id : String) : Option GoError × World β :=
  -- Get task info before delete for logging
  let ((task, _), w1) := PostgresRepository.GetByID env w id
  match PostgresRepository.Delete env w1 id with
  | (some err, w2) => (some (.wrap "service: delete task" err), w2)
  | (none, w2) =>
    -- Invalidate cache
    let (cacheErr, w3) := RedisCache.InvalidateTask env w2 id
    let w4 := if cacheErr.isSome then w3.warn "failed to invalidate cache" else w3
    -- Log activity
    let title := match task with
      | some t => t.Title
      | none => id
    let w5 := w4.spawn
      { taskID := id
        action := "deleted"
        details := "Task " ++ quote ++ title ++ quote ++ " deleted" }
    (none, w5)

/-! ## internal/repository/mongo_repo.go, reads -/

/-- The Go slice `[]model.ActivityLog`, `none` being the nil slice. -/
abbrev ActivityLogs : Type := Option (List ActivityLog)

/-- Sort `timestamp: -1` (entries with equal timestamps keep their insertion order). -/
def sortByTimestampDesc (logs : List ActivityLog) : List ActivityLog :=
  logs.insertionSort (fun a b => b.Timestamp ≤ a.Timestamp)

/-- The call `collection.Find(ctx, filter, opts)` with the filter `task_id = taskID`,
the sort `timestamp: -1` and a positive limit: the documents of the cursor. -/
def mongoFindByTask (fault : Option String) (w : World β) (taskID : String) (limit : Int) :
    Except GoError (List ActivityLog) × World β :=
  let w1 := w.record (.mongoFind taskID limit)
  match fault with
  | some msg => (.error (.driver msg), w1)
  | none =>
    (.ok ((sortByTimestampDesc (w1.logs.filter (fun l => l.TaskID == taskID))).take limit.toNat),
      w1)

/-- The call `cursor.All(ctx, &logs)` on the nil slice `logs`: decodes every
document of the cursor into the slice; a cursor without documents leaves the
slice nil. -/
def cursorAll (fault : Option String) (docs : List ActivityLog) :
    Except GoError ActivityLogs :=
  match fault with
  | some msg => .error (.driver msg)
  | none => .ok (if docs.isEmpty then none else some docs)

/-- MongoRepository.GetActivities retrieves activity logs for a specific task. -/
def MongoRepository.GetActivities (env : Env) (w : World β) (taskID : String) (limit : Int) :
    (ActivityLogs × Option GoError) × World β :=
  let limit := if limit ≤ 0 then 50 else limit
  match mongoFindByTask env.mongoFind w taskID limit with
  | (.error err, w1) => ((none, some (.wrap "failed to get activities" err)), w1)
  | (.ok cursor, w1) =>
    match cursorAll env.mongoDecode cursor with
    | .error err => ((none, some (.wrap "failed to decode activities" err)), w1)
    | .ok logs => ((logs, none), w1)

/-- TaskService.GetActivities returns activity logs for a task. -/
def TaskService.GetActivities (env : Env) (w : World β) (taskID : String) (limit : Int) :
    (ActivityLogs × Option GoError) × World β :=
  MongoRepository.GetActivities env w taskID limit

/-! ## internal/handler/task_handler.go -/

/-- ErrorResponse represents an error response. -/
structure ErrorResponse where
  Error : String
  Message : String
  Code : Nat
deriving DecidableEq, Repr

/-- The JSON body written by a handler. -/
inductive Body where
  | empty
  | error (e : ErrorResponse)
  | task (data : Task)
  | list (r : TaskListResponse)
deriving DecidableEq, Repr

/-- What the client receives: the status code and the body. -/
structure Response where
  status : Nat
  body : Body
deriving DecidableEq, Repr

/-- The response of the Recovery middleware to a panic in a handler. -/
def recovered : Response :=
  ⟨500, .error ⟨"internal_error", "An unexpected error occurred", 500⟩⟩

/-- The function `strconv.Atoi`: an optional sign and decimal digits; 0 with an error
for anything else; the nearest bound of `int` with an error outside its range. -/
def atoi (s : String) : Int × Bool :=
  let cs := s.toList
  let (neg, ds) := match cs with
    | '-' :: rest => (true, rest)
    | '+' :: rest => (false, rest)
    | _ => (false, cs)
  if ds.isEmpty || !(ds.all Char.isDigit) then (0, true)
  else
    let n : Int := ds.foldl (fun acc c => acc * 10 + (c.toNat - 48 : Nat)) 0
    let v := if neg then -n else n
    if v > 2 ^ 63 - 1 then (2 ^ 63 - 1, true)
    else if v < -2 ^ 63 then (-2 ^ 63, true)
    else (v, false)

/-- TaskHandler.GetTask: GET /api/tasks/:id. -/
def TaskHandler.GetTask (js : Codec β) (env : Env) (w : World β) (id : String) :
    Response × World β :=
  match TaskService.GetByID js env w id with
  | ((_, some _), w1) => (⟨404, .error ⟨"not_found", "Task not found", 404⟩⟩, w1)
  | ((none, none), w1) => (recovered, w1)
  | ((some task, none), w1) => (⟨200, .task task⟩, w1)

/-- TaskHandler.ListTasks: GET /api/tasks with the query parameters `page`,
`per_page` and `status` (`none` when the parameter is not given). -/
def TaskHandler.ListTasks (env : Env) (w : World β) (page perPage status : Option String) :
    Response × World β :=
  let page := (atoi (page.getD "1")).1
  let perPage := (atoi (perPage.getD "20")).1
  let status := status.getD ""
  match TaskService.List env w page perPage status with
  | ((_, some _), w1) => (⟨500, .error ⟨"internal_error", "Failed to list tasks", 500⟩⟩, w1)
  | ((none, none), w1) => (⟨200, .empty⟩, w1)
  | ((some result, none), w1) => (⟨200, .list result⟩, w1)

/-- TaskHandler.UpdateTask: PUT /api/tasks/:id; `bind` is the outcome of
`c.ShouldBindJSON(&req)`. -/
def TaskHandler.UpdateTask (js : Codec β) (env : Env) (w : World β) (id : String)
    (bind : Except String TaskUpdateRequest) : Response × World β :=
  match bind with
  | .error msg => (⟨400, .error ⟨"validation_error", msg, 400⟩⟩, w)
  | .ok req =>
    match TaskService.Update js env w id req with
    | ((_, some _), w1) => (⟨404, .error ⟨"not_found", "Task not found", 404⟩⟩, w1)
    | ((none, none), w1) => (recovered, w1)
    | ((some task, none), w1) => (⟨200, .task task⟩, w1)

/-- TaskHandler.DeleteTask: DELETE /api/tasks/:id. -/
def TaskHandler.DeleteTask (env : Env) (w : World β) (id : String) : Response × World β :=
  match TaskService.Delete env w id with
  | (some _, w1) => (⟨404, .error ⟨"not_found", "Task not found", 404⟩⟩, w1)
  | (none, w1) => (⟨204, .empty⟩, w1)

/-! ## automation/health-checker/main.go -/

namespace HealthChecker

/-- Endpoint defines a service to monitor. -/
structure Endpoint where
  Name : String
  URL : String
  Method : String
  Timeout : Int
  Expect : Int
deriving DecidableEq, Repr

/-- Webhook holds notification configuration. -/
structure Webhook where
  URL : String
  Enabled : Bool
deriving DecidableEq, Repr

/-- Config holds the health checker configuration. -/
structure Config where
  Endpoints : List Endpoint
  Interval : Int
  Webhook : HealthChecker.Webhook
deriving DecidableEq, Repr

/-- The function loadConfig; `readFile` is `os.ReadFile` and `unmarshal` is
`yaml.Unmarshal` into a zero `Config`. -/
def loadConfig (readFile : String → Except GoError String)
    (unmarshal : String → Except GoError Config) (path : String) :
    Option Config × Option GoError :=
  match readFile path with
  | .error err => (none, some (.wrap "read config" err))
  | .ok data =>
    match unmarshal data with
    | .error err => (none, some (.wrap "parse config" err))
    | .ok cfg =>
      -- Set defaults
      let cfg := if cfg.Interval ≤ 0 then { cfg with Interval := 30 } else cfg
      let cfg := { cfg with
        Endpoints := cfg.Endpoints.map (fun ep =>
          let ep := if ep.Method = "" then { ep with Method := "GET" } else ep
          let ep := if ep.Timeout ≤ 0 then { ep with Timeout := 5 } else ep
          let ep := if ep.Expect ≤ 0 then { ep with Expect := 200 } else ep
          ep) }
      (some cfg, none)

end HealthChecker

/-! ## Concrete environments used to exercise the definitions -/

/-- A codec whose bytes are the task itself. -/
def plainCodec : Codec Task :=
  { marshal := fun t => .ok t, unmarshal := fun t => .ok t }

/-- An environment in which no driver call fails; the clock reads `t`, then `t + 1`, ... -/
def calmEnv (rand : Nat) (t : Time) : Env :=
  { rand := rand, now := fun k => t + k
    pgInsert := none, pgSelect := none, pgCount := none, pgQuery := none, pgScan := none
    pgUpdate := none, pgDelete := none, redisGet := none, redisSet := none, redisDel := none
    mongoInsert := none, mongoFind := none, mongoDecode := none }

/-- An environment in which every Redis call fails and nothing else does. -/
def cacheDownEnv (rand : Nat) (t : Time) : Env :=
  { calmEnv rand t with
    redisGet := some "dial tcp: connection refused"
    redisSet := some "dial tcp: connection refused"
    redisDel := some "dial tcp: connection refused" }

/-- An environment in which every PostgreSQL statement fails and nothing else does. -/
def storeDownEnv (rand : Nat) (t : Time) : Env :=
  { calmEnv rand t with
    pgInsert := some "connection refused", pgSelect := some "connection refused"
    pgCount := some "connection refused", pgQuery := some "connection refused"
    pgUpdate := some "connection refused", pgDelete := some "connection refused" }

/-- An environment in which the Redis SET fails and nothing else does. -/
def recacheDownEnv (rand : Nat) (t : Time) : Env :=
  { calmEnv rand t with redisSet := some "dial tcp: connection refused" }

/-- A stored task. -/
def sampleTask : Task :=
  ⟨"t-1", "Write spec", "draft", "pending", "high", 100, 100⟩

/-- A world holding `sampleTask` in the table and in the cache. -/
def sampleWorld : World Task :=
  { tasks := [sampleTask], cache := [⟨"task:t-1", sampleTask, 300⟩]
    logs := [], pending := [], trace := [] }

/-- The world of `sampleWorld` with an empty cache. -/
def coldWorld : World Task :=
  { tasks := [sampleTask], cache := [], logs := [], pending := [], trace := [] }

/-- A table of three tasks, two of them pending, and nothing cached. -/
def busyWorld : World Task :=
  { tasks := [⟨"t-1", "Write spec", "", "pending", "high", 100, 100⟩,
              ⟨"t-2", "Review", "", "completed", "low", 200, 250⟩,
              ⟨"t-3", "Ship", "", "pending", "medium", 300, 300⟩]
    cache := [], logs := [], pending := [], trace := [] }

/-- A world whose audit log holds three entries for "t-1" and one for "t-2". -/
def auditedWorld : World Task :=
  { tasks := [], cache := []
    logs := [⟨"0", "t-1", "created", "", 10000⟩, ⟨"1", "t-2", "created", "", 15000⟩,
             ⟨"2", "t-1", "deleted", "", 30000⟩, ⟨"3", "t-1", "updated", "", 20000⟩]
    pending := [], trace := [] }

/-- The empty world. -/
def emptyWorld : World Task :=
  { tasks := [], cache := [], logs := [], pending := [], trace := [] }

/-! ## Auxiliary definitions used in the statements -/

/-- The row written by Update: the stored row patched by the request. -/
def patched (stored : Task) (req : TaskUpdateRequest) (now : Time) : Task :=
  { ID := stored.ID
    Title := req.Title.getD stored.Title
    Description := req.Description.getD stored.Description
    Status := req.Status.getD stored.Status
    Priority := req.Priority.getD stored.Priority
    CreatedAt := stored.CreatedAt
    UpdatedAt := now }

/-- The keyspace after `InvalidateTask`. -/
def cacheAfterDel (env : Env) (cache : List (CacheEntry β)) (id : String) : List (CacheEntry β) :=
  match env.redisDel with
  | some _ => cache
  | none => cache.filter (fun e => !(e.key == taskCachePrefix ++ id))

/-- The keyspace after `SetTask`. -/
def cacheAfterSet (js : Codec β) (env : Env) (cache : List (CacheEntry β)) (t : Task) :
    List (CacheEntry β) :=
  match js.marshal t, env.redisSet with
  | .ok data, none =>
    ⟨taskCachePrefix ++ t.ID, data, taskCacheTTL⟩ ::
      cache.filter (fun e => !(e.key == taskCachePrefix ++ t.ID))
  | _, _ => cache

/-- Two environments that agree on what the primary store path reads: the bits of
the UUID, the clock, and the outcome of every PostgreSQL statement. -/
def Env.samePrimary (a b : Env) : Prop :=
  a.rand = b.rand ∧ a.now = b.now ∧ a.pgInsert = b.pgInsert ∧ a.pgSelect = b.pgSelect ∧
  a.pgUpdate = b.pgUpdate ∧ a.pgDelete = b.pgDelete

/-- How the coordinator turns the result of the repository into its own. -/
def serviceResult (msg : String) : Option Task × Option GoError → Option Task × Option GoError
  | (_, some err) => (none, some (.wrap msg err))
  | (none, none) => (none, some .nilDeref)
  | (some t, none) => (some t, none)

/-- One call into the coordinator. -/
inductive Op where
  | create (req : TaskCreateRequest)
  | get (id : String)
  | update (id : String) (req : TaskUpdateRequest)
  | delete (id : String)
deriving DecidableEq, Repr

/-- The world after one call, made in the environment that comes with it. -/
def step (js : Codec β) (w : World β) : Env × Op → World β
  | (env, .create req) => (TaskService.Create js env w req).2
  | (env, .get id) => (TaskService.GetByID js env w id).2
  | (env, .update id req) => (TaskService.Update js env w id req).2
  | (env, .delete id) => (TaskService.Delete env w id).2

/-- The world after a sequence of calls made one at a time. -/
def run (js : Codec β) (w : World β) (calls : List (Env × Op)) : World β :=
  calls.foldl (step js) w

/-- No Redis call fails in this environment. -/
def Env.cacheUp (env : Env) : Prop :=
  env.redisGet = none ∧ env.redisSet = none ∧ env.redisDel = none

/-- Every cache entry decodes to a task, sits under the key of that task, and that
task is the row the table holds for its ID. -/
def Coherent (js : Codec β) (tasks : List Task) (cache : List (CacheEntry β)) : Prop :=
  ∀ e ∈ cache, ∃ t, js.unmarshal e.data = .ok t ∧ e.key = taskCachePrefix ++ t.ID ∧
    tasks.find? (fun r => r.ID == t.ID) = some t

/-- The endpoint the specification of loadConfig describes for a parsed endpoint:
the parsed method when non-empty and "GET" otherwise, the parsed timeout when
positive and 5 otherwise, the parsed expected status when positive and 200
otherwise, the parsed name and URL. -/
def HealthChecker.specEndpoint (p : HealthChecker.Endpoint) : HealthChecker.Endpoint :=
  { Name := p.Name
    URL := p.URL
    Method := if p.Method ≠ "" then p.Method else "GET"
    Timeout := if p.Timeout > 0 then p.Timeout else 5
    Expect := if p.Expect > 0 then p.Expect else 200 }

/-- A parsed configuration with one endpoint that sets nothing but its name and
URL and one that sets everything. -/
def HealthChecker.sampleConfig : HealthChecker.Config :=
  { Endpoints := [⟨"api", "http://localhost:8080/health", "", 0, 0⟩,
                  ⟨"web", "http://localhost/", "HEAD", 2, 204⟩]
    Interval := 0
    Webhook := ⟨"http://hooks.example/notify", true⟩ }

/-- A run that creates a task, updates it and reads it, with nothing failing. -/
def sampleRun : List (Env × Op) :=
  [(calmEnv 7 100, .create ⟨"Write spec", "", "high"⟩),
   (calmEnv 0 200, .update (uuidString 7) ⟨none, none, some "completed", none⟩),
   (calmEnv 0 300, .get (uuidString 7))]

/-- The response "404 not_found" of the get, update and delete handlers. -/
def notFound : Response :=
  ⟨404, .error ⟨"not_found", "Task not found", 404⟩⟩

/-- The cache, the audit log and the pending goroutines of `w2` are those of `w`. -/
def SameSideState (w w2 : World β) : Prop :=
  w2.cache = w.cache ∧ w2.logs = w.logs ∧ w2.pending = w.pending

/-- The audit log and the pending goroutines of `w2` are those of `w`. -/
def SameAudit (w w2 : World β) : Prop :=
  w2.logs = w.logs ∧ w2.pending = w.pending

/-- The world once the goroutine spawned by Create has run. -/
def createdWorld (js : Codec β) (envC envA : Env) (w : World β) (req : TaskCreateRequest) :
    World β :=
  runAuditJob envA (TaskService.Create js envC w req).2 0

/-- The world once the goroutine spawned by Update has run. -/
def updatedWorld (js : Codec β) (envU envA : Env) (w : World β) (id : String)
    (req : TaskUpdateRequest) : World β :=
  runAuditJob envA (TaskService.Update js envU w id req).2 0

/-- The world once the goroutine spawned by Delete has run. -/
def deletedWorld (envD envA : Env) (w : World β) (id : String) : World β :=
  runAuditJob envA (TaskService.Delete envD w id).2 0

/-! ## Theorems -/

theorem uuidString_ne_empty (r : Nat) : uuidString r ≠ "" := by
  intro h
  have hlen := congrArg String.length h
  simp [uuidString, hexByte] at hlen

/-- C1: for a create request with a non-empty title that the primary store
accepts, TaskService.Create returns a task with a non-empty ID, status
"pending", the title and description of the request, and the priority of the
request, "medium" standing in for the empty priority. -/
theorem create_returns_pending_task (js : Codec β) (env : Env) (w : World β)
    (req : TaskCreateRequest) (_htitle : req.Title ≠ "")
    (haccept : (PostgresRepository.Create env w req).1.2 = none) :
    ∃ task, (TaskService.Create js env w req).1 = (some task, none) ∧
      task.ID ≠ "" ∧ task.Status = "pending" ∧ task.Title = req.Title ∧
      task.Description = req.Description ∧
      task.Priority = (if req.Priority = "" then "medium" else req.Priority) := by
  unfold TaskService.Create
  unfold PostgresRepository.Create pgInsertReturning at haccept ⊢
  cases hf : env.pgInsert with
  | some msg => simp [hf] at haccept
  | none =>
    simp only [hf] at haccept ⊢
    split_ifs at haccept ⊢ with hp hdup
    all_goals first
      | (simp at haccept; done)
      | (refine ⟨_, rfl, ?_⟩; simp [uuidString_ne_empty, hp])

theorem create_returns_pending_task_witness :
    (⟨"Write spec", "", "high"⟩ : TaskCreateRequest).Title ≠ "" ∧
    (PostgresRepository.Create (calmEnv 7 100) emptyWorld ⟨"Write spec", "", "high"⟩).1.2 = none ∧
    ∃ task, (TaskService.Create plainCodec (calmEnv 7 100) emptyWorld
        ⟨"Write spec", "", "high"⟩).1 = (some task, none) ∧
      task.ID ≠ "" ∧ task.Status = "pending" ∧ task.Title = "Write spec" ∧
      task.Description = "" ∧
      task.Priority = (if ("high" : String) = "" then "medium" else "high") :=
  ⟨by decide, by decide,
    create_returns_pending_task plainCodec (calmEnv 7 100) emptyWorld ⟨"Write spec", "", "high"⟩
      (by decide) (by decide)⟩

/-! ### The cache-aside read -/

@[simp] theorem record_tasks (w : World β) (e : Event) : (w.record e).tasks = w.tasks := rfl

@[simp] theorem record_cache (w : World β) (e : Event) : (w.record e).cache = w.cache := rfl

@[simp] theorem warn_tasks (w : World β) (m : String) : (w.warn m).tasks = w.tasks := rfl

@[simp] theorem warn_cache (w : World β) (m : String) : (w.warn m).cache = w.cache := rfl

/-- GetTask only appends to the trace. -/
theorem GetTask_world (js : Codec β) (env : Env) (w : World β) (id : String) :
    (RedisCache.GetTask js env w id).2 = w.record (.redisGet (taskCachePrefix ++ id)) := by
  unfold RedisCache.GetTask redisGet
  cases env.redisGet with
  | some msg => rfl
  | none =>
    simp only
    cases (w.record (.redisGet (taskCachePrefix ++ id))).cache.find?
        (fun e => e.key == taskCachePrefix ++ id) with
    | none => rfl
    | some e =>
      simp only
      cases js.unmarshal e.data <;> rfl

/-- A failing lookup yields no cached task. -/
theorem GetTask_fault (js : Codec β) (env : Env) (w : World β) (id msg : String)
    (h : env.redisGet = some msg) :
    (RedisCache.GetTask js env w id).1
      = (none, some (.wrap "failed to get cached task" (.driver msg))) := by
  simp [RedisCache.GetTask, redisGet, h]

/-- An absent key is a miss. -/
theorem GetTask_miss (js : Codec β) (env : Env) (w : World β) (id : String)
    (h : env.redisGet = none)
    (hc : w.cache.find? (fun e => e.key == taskCachePrefix ++ id) = none) :
    (RedisCache.GetTask js env w id).1 = (none, none) := by
  simp [RedisCache.GetTask, redisGet, h, hc]

/-- A decodable entry is a hit. -/
theorem GetTask_hit (js : Codec β) (env : Env) (w : World β) (id : String)
    (e : CacheEntry β) (t : Task) (h : env.redisGet = none)
    (hc : w.cache.find? (fun e => e.key == taskCachePrefix ++ id) = some e)
    (hd : js.unmarshal e.data = .ok t) :
    (RedisCache.GetTask js env w id).1 = (some t, none) := by
  simp [RedisCache.GetTask, redisGet, h, hc, hd]

/-- On a hit GetByID returns the cached task after one Redis read and one debug line. -/
theorem GetByID_hit (js : Codec β) (env : Env) (w : World β) (id : String)
    (e : CacheEntry β) (t : Task) (h : env.redisGet = none)
    (hc : w.cache.find? (fun e => e.key == taskCachePrefix ++ id) = some e)
    (hd : js.unmarshal e.data = .ok t) :
    TaskService.GetByID js env w id
      = ((some t, none), (w.record (.redisGet (taskCachePrefix ++ id))).debug "cache hit") := by
  have h1 := GetTask_hit js env w id e t h hc hd
  have h2 := GetTask_world js env w id
  unfold TaskService.GetByID
  rcases hg : RedisCache.GetTask js env w id with ⟨⟨c, err⟩, w1⟩
  rw [hg] at h1 h2
  simp only at h1 h2
  obtain ⟨rfl, rfl⟩ := Prod.mk.inj h1
  subst h2
  rfl

/-- Without a cached task GetByID returns the row of the primary store. -/
theorem GetByID_fallthrough (js : Codec β) (env : Env) (w : World β) (id : String) (row : Task)
    (hmiss : (RedisCache.GetTask js env w id).1.1 = none)
    (hpg : env.pgSelect = none)
    (hrow : w.tasks.find? (fun r => r.ID == id) = some row) :
    (TaskService.GetByID js env w id).1 = (some row, none) := by
  have h2 := GetTask_world js env w id
  unfold TaskService.GetByID
  rcases hg : RedisCache.GetTask js env w id with ⟨⟨c, err⟩, w1⟩
  rw [hg] at hmiss h2
  simp only at hmiss h2
  subst hmiss h2
  simp only [PostgresRepository.GetByID, pgSelectByID, hpg]
  cases err <;> simp [hrow]

/-- Without a cached task and without a row GetByID fails with "task not found". -/
theorem GetByID_absent (js : Codec β) (env : Env) (w : World β) (id : String)
    (hmiss : (RedisCache.GetTask js env w id).1.1 = none)
    (hrow : w.tasks.find? (fun r => r.ID == id) = none) :
    ∃ cause, (TaskService.GetByID js env w id).1
      = (none, some (.wrap "service: get task" (.wrap "task not found" cause))) := by
  have h2 := GetTask_world js env w id
  unfold TaskService.GetByID
  rcases hg : RedisCache.GetTask js env w id with ⟨⟨c, err⟩, w1⟩
  rw [hg] at hmiss h2
  simp only at hmiss h2
  subst hmiss h2
  simp only [PostgresRepository.GetByID, pgSelectByID]
  cases env.pgSelect <;> cases err <;> simp [hrow]

/-- An error returned by GetByID is the error of the primary store read, never
the error of the cache lookup. -/
theorem GetByID_error_shape (js : Codec β) (env : Env) (w : World β) (id : String)
    (e : GoError) (h : (TaskService.GetByID js env w id).1.2 = some e) :
    ∃ cause, e = .wrap "service: get task" (.wrap "task not found" cause) ∧
      (cause = .pgxNoRows ∨ ∃ m, env.pgSelect = some m ∧ cause = .driver m) := by
  have h2 := GetTask_world js env w id
  unfold TaskService.GetByID at h
  rcases hg : RedisCache.GetTask js env w id with ⟨⟨c, err⟩, w1⟩
  rw [hg] at h h2
  simp only at h h2
  subst h2
  cases c with
  | some t => simp at h
  | none =>
    simp only [PostgresRepository.GetByID, pgSelectByID] at h
    cases hs : env.pgSelect with
    | some m =>
      simp only [hs] at h
      exact ⟨.driver m, by simpa using h.symm, Or.inr ⟨m, rfl, rfl⟩⟩
    | none =>
      cases hf : w.tasks.find? (fun r => r.ID == id) with
      | none =>
        refine ⟨.pgxNoRows, ?_, Or.inl rfl⟩
        cases err <;> simp [hs, hf, World.warn] at h <;> exact h.symm
      | some row =>
        cases err <;> simp [hs, hf, World.warn] at h

/-! ### Create followed by a read -/

theorem find?_append_fresh (rows : List Task) (t : Task)
    (h : rows.any (fun r => r.ID == t.ID) = false) :
    (rows ++ [t]).find? (fun r => r.ID == t.ID) = some t := by
  induction rows with
  | nil => simp
  | cons r rest ih =>
    simp only [List.any_cons, Bool.or_eq_false_iff] at h
    simp [List.find?_cons, h.1, ih h.2]

/-- What a successful Create leaves behind: the new row at the end of the table,
whose ID was not in use, and either the new cache entry or the old cache. -/
theorem Create_ok_world (js : Codec β) (env : Env) (w : World β) (req : TaskCreateRequest)
    (task : Task) (h : (TaskService.Create js env w req).1 = (some task, none)) :
    (TaskService.Create js env w req).2.tasks = w.tasks ++ [task] ∧
    w.tasks.any (fun r => r.ID == task.ID) = false ∧
    ((∃ data, js.marshal task = .ok data ∧
        (TaskService.Create js env w req).2.cache
          = ⟨taskCachePrefix ++ task.ID, data, taskCacheTTL⟩ ::
              w.cache.filter (fun e => !(e.key == taskCachePrefix ++ task.ID))) ∨
      (TaskService.Create js env w req).2.cache = w.cache) := by
  unfold TaskService.Create PostgresRepository.Create pgInsertReturning at h ⊢
  cases hf : env.pgInsert with
  | some msg => simp [hf] at h
  | none =>
    simp only [hf] at h ⊢
    split_ifs at h ⊢ with hp hdup hdup
    · simp at h
    · simp only [Prod.mk.injEq, Option.some.injEq, and_true] at h
      subst h
      simp only [Bool.not_eq_true, record_tasks] at hdup
      refine ⟨?_, hdup, ?_⟩
      · simp only [RedisCache.SetTask, redisSet]
        cases js.marshal _ <;> cases env.redisSet <;> rfl
      · simp only [RedisCache.SetTask, redisSet]
        cases hm : js.marshal _ with
        | error e => right; rfl
        | ok data =>
          cases env.redisSet with
          | some msg => right; rfl
          | none => left; exact ⟨data, rfl, rfl⟩
    · simp at h
    · simp only [Prod.mk.injEq, Option.some.injEq, and_true] at h
      subst h
      simp only [Bool.not_eq_true, record_tasks] at hdup
      refine ⟨?_, hdup, ?_⟩
      · simp only [RedisCache.SetTask, redisSet]
        cases js.marshal _ <;> cases env.redisSet <;> rfl
      · simp only [RedisCache.SetTask, redisSet]
        cases hm : js.marshal _ with
        | error e => right; rfl
        | ok data =>
          cases env.redisSet with
          | some msg => right; rfl
          | none => left; exact ⟨data, rfl, rfl⟩

/-- C2: after a successful Create, GetByID on the returned ID succeeds and
returns the created task, from the cache when the cache write of Create took
effect and from the primary store otherwise.  The ID is fresh for the cache, the
JSON encoding of the task decodes to the task, and the read of the primary store
is not failing. -/
theorem getByID_after_create (js : Codec β) (env env2 : Env) (w : World β)
    (req : TaskCreateRequest) (task : Task)
    (hcreate : (TaskService.Create js env w req).1 = (some task, none))
    (hfresh : w.cache.find? (fun e => e.key == taskCachePrefix ++ task.ID) = none)
    (hjson : ∀ data, js.marshal task = .ok data → js.unmarshal data = .ok task)
    (hstore : env2.pgSelect = none) :
    (TaskService.GetByID js env2 (TaskService.Create js env w req).2 task.ID).1
      = (some task, none) := by
  obtain ⟨htasks, hnew, hcache⟩ := Create_ok_world js env w req task hcreate
  have hrow : (TaskService.Create js env w req).2.tasks.find? (fun r => r.ID == task.ID)
      = some task := by
    rw [htasks]; exact find?_append_fresh _ _ hnew
  cases hget : env2.redisGet with
  | some msg =>
    refine GetByID_fallthrough js env2 _ task.ID task ?_ hstore hrow
    rw [GetTask_fault js env2 _ task.ID msg hget]
  | none =>
    rcases hcache with ⟨data, hm, hc⟩ | hc
    · have hfind : (TaskService.Create js env w req).2.cache.find?
          (fun e => e.key == taskCachePrefix ++ task.ID)
          = some ⟨taskCachePrefix ++ task.ID, data, taskCacheTTL⟩ := by
        rw [hc]; simp
      rw [GetByID_hit js env2 _ task.ID _ task hget hfind (hjson data hm)]
    · refine GetByID_fallthrough js env2 _ task.ID task ?_ hstore hrow
      rw [GetTask_miss js env2 _ task.ID hget (by rw [hc]; exact hfresh)]

theorem getByID_after_create_witness :
    (TaskService.Create plainCodec (cacheDownEnv 7 100) emptyWorld ⟨"Write spec", "", "high"⟩).1
      = (some ⟨uuidString 7, "Write spec", "", "pending", "high", 100, 101⟩, none) ∧
    (TaskService.GetByID plainCodec (calmEnv 0 200)
        (TaskService.Create plainCodec (cacheDownEnv 7 100) emptyWorld
          ⟨"Write spec", "", "high"⟩).2 (uuidString 7)).1
      = (some ⟨uuidString 7, "Write spec", "", "pending", "high", 100, 101⟩, none) :=
  ⟨by decide,
    getByID_after_create plainCodec (cacheDownEnv 7 100) (calmEnv 0 200) emptyWorld
      ⟨"Write spec", "", "high"⟩ ⟨uuidString 7, "Write spec", "", "pending", "high", 100, 101⟩
      (by decide) (by decide) (fun data h => by cases h; rfl) rfl⟩

/-! ### Update -/

theorem find?_map_of_pred (rows : List Task) (f : Task → Task) (p : Task → Bool)
    (hp : ∀ r, p (f r) = p r) : (rows.map f).find? p = (rows.find? p).map f := by
  induction rows with
  | nil => rfl
  | cons r rest ih =>
    simp only [List.map_cons, List.find?_cons, hp]
    cases p r <;> simp [ih]

/-- With the row present and both statements taking effect, the repository
Update returns the patched row and replaces the row by it. -/
theorem Update_ok (env : Env) (w : World β) (id : String) (req : TaskUpdateRequest)
    (stored : Task) (hrow : w.tasks.find? (fun r => r.ID == id) = some stored)
    (hsel : env.pgSelect = none) (hupd : env.pgUpdate = none) :
    (PostgresRepository.Update env w id req).1 = (some (patched stored req (env.now 0)), none) ∧
    (PostgresRepository.Update env w id req).2.cache = w.cache ∧
    (PostgresRepository.Update env w id req).2.tasks.find? (fun r => r.ID == id)
      = some (patched stored req (env.now 0)) := by
  have hid : stored.ID = id := by
    have := List.find?_some hrow
    simpa using this
  have hbeq : (stored.ID == id) = true := by simp [hid]
  have hmap : ∀ f : Task → Task, (∀ r, (f r).ID = r.ID) →
      ((w.tasks.map f).find? (fun r => r.ID == id)) = some (f stored) := by
    intro f hf
    rw [find?_map_of_pred _ _ _ (by intro r; simp [hf r]), hrow]; rfl
  rcases req with ⟨_ | a, _ | b, _ | c, _ | d⟩ <;>
  · simp only [PostgresRepository.Update, PostgresRepository.GetByID, pgSelectByID,
      pgUpdateReturning, hsel, hupd, record_tasks, hrow]
    rw [hmap _ (by intro r; by_cases h : (r.ID == id) = true <;> simp [h])]
    simp only [hbeq, beq_self_eq_true, if_true, patched, Option.getD, hid]
    refine ⟨trivial, rfl, ?_⟩
    rw [hmap _ (by intro r; by_cases h : (r.ID == id) = true <;> simp [h])]
    simp only [hbeq, beq_self_eq_true, if_true, hid]

/-- C3: the task returned by the repository Update takes each of title,
description, status and priority from the request when the field is present and
from the stored row when it is absent, and keeps the ID and the creation time of
the stored row; a present empty string is written like any other value. -/
theorem update_is_merge_patch (env : Env) (w : World β) (id : String) (req : TaskUpdateRequest)
    (stored : Task) (hrow : w.tasks.find? (fun r => r.ID == id) = some stored)
    (hsel : env.pgSelect = none) (hupd : env.pgUpdate = none) :
    ∃ t, (PostgresRepository.Update env w id req).1 = (some t, none) ∧
      t.Title = req.Title.getD stored.Title ∧
      t.Description = req.Description.getD stored.Description ∧
      t.Status = req.Status.getD stored.Status ∧
      t.Priority = req.Priority.getD stored.Priority ∧
      t.ID = stored.ID ∧ t.CreatedAt = stored.CreatedAt ∧
      (req.Title = some "" → t.Title = "") ∧
      (req.Description = some "" → t.Description = "") ∧
      (req.Status = some "" → t.Status = "") ∧
      (req.Priority = some "" → t.Priority = "") := by
  refine ⟨_, (Update_ok env w id req stored hrow hsel hupd).1, rfl, rfl, rfl, rfl, rfl, rfl, ?_⟩
  refine ⟨?_, ?_, ?_, ?_⟩ <;> intro h <;> simp [patched, h]

theorem update_is_merge_patch_witness :
    sampleWorld.tasks.find? (fun r => r.ID == "t-1") = some sampleTask ∧
    ∃ t, (PostgresRepository.Update (calmEnv 0 500) sampleWorld "t-1"
        ⟨some "", none, some "completed", none⟩).1 = (some t, none) ∧
      t.Title = (some "").getD sampleTask.Title ∧
      t.Description = (none : Option String).getD sampleTask.Description ∧
      t.Status = (some "completed").getD sampleTask.Status ∧
      t.Priority = (none : Option String).getD sampleTask.Priority ∧
      t.ID = sampleTask.ID ∧ t.CreatedAt = sampleTask.CreatedAt ∧
      ((some "" : Option String) = some "" → t.Title = "") ∧
      ((none : Option String) = some "" → t.Description = "") ∧
      ((some "completed" : Option String) = some "" → t.Status = "") ∧
      ((none : Option String) = some "" → t.Priority = "") :=
  ⟨by decide,
    update_is_merge_patch (calmEnv 0 500) sampleWorld "t-1"
      ⟨some "", none, some "completed", none⟩ sampleTask (by decide) rfl rfl⟩

/-! ### The cache after the writes of the coordinator -/

theorem SetTask_world (js : Codec β) (env : Env) (w : World β) (t : Task) :
    (RedisCache.SetTask js env w t).2.tasks = w.tasks ∧
    (RedisCache.SetTask js env w t).2.cache = cacheAfterSet js env w.cache t := by
  unfold RedisCache.SetTask redisSet cacheAfterSet
  cases js.marshal t <;> cases env.redisSet <;> exact ⟨rfl, rfl⟩

theorem InvalidateTask_world (env : Env) (w : World β) (id : String) :
    (RedisCache.InvalidateTask env w id).2.tasks = w.tasks ∧
    (RedisCache.InvalidateTask env w id).2.cache = cacheAfterDel env w.cache id := by
  unfold RedisCache.InvalidateTask redisDel cacheAfterDel
  cases env.redisDel <;> exact ⟨rfl, rfl⟩

theorem find?_filter_key (cache : List (CacheEntry β)) (key : String) :
    (cache.filter (fun e => !(e.key == key))).find? (fun e => e.key == key) = none := by
  induction cache with
  | nil => rfl
  | cons e rest ih =>
    by_cases h : e.key = key <;> simp [List.filter_cons, List.find?_cons, h, ih]

/-- The service Update, when the repository Update succeeds: the result is the
task of the repository, and the table and the cache are those of the repository
after the invalidation and the re-caching. -/
theorem Update_service (js : Codec β) (env : Env) (w : World β) (id : String)
    (req : TaskUpdateRequest) (t : Task)
    (h : (PostgresRepository.Update env w id req).1 = (some t, none)) :
    (TaskService.Update js env w id req).1 = (some t, none) ∧
    (TaskService.Update js env w id req).2.tasks = (PostgresRepository.Update env w id req).2.tasks ∧
    (TaskService.Update js env w id req).2.cache
      = cacheAfterSet js env
          (cacheAfterDel env (PostgresRepository.Update env w id req).2.cache id) t := by
  unfold TaskService.Update
  rcases hu : PostgresRepository.Update env w id req with ⟨⟨r, e⟩, w1⟩
  rw [hu] at h
  simp only [Prod.mk.injEq] at h
  obtain ⟨rfl, rfl⟩ := h
  simp only
  have hi := InvalidateTask_world env w1 id
  rcases hdel : RedisCache.InvalidateTask env w1 id with ⟨e1, w2⟩
  rw [hdel] at hi
  simp only at hi ⊢
  have hs := SetTask_world js env (if e1.isSome = true then w2.warn "failed to invalidate cache" else w2) t
  rcases hset : RedisCache.SetTask js env
      (if e1.isSome = true then w2.warn "failed to invalidate cache" else w2) t with ⟨e2, w4⟩
  rw [hset] at hs
  simp only at hs ⊢
  refine ⟨trivial, ?_, ?_⟩
  · cases e1 <;> cases e2 <;> simp_all [World.spawn]
  · cases e1 <;> cases e2 <;> simp_all [World.spawn]

/-- A successful service Update means that both statements of the repository
Update took effect. -/
theorem Update_success_faults (js : Codec β) (env : Env) (w : World β) (id : String)
    (req : TaskUpdateRequest) (h : (TaskService.Update js env w id req).1.2 = none) :
    env.pgSelect = none ∧ env.pgUpdate = none := by
  unfold TaskService.Update PostgresRepository.Update PostgresRepository.GetByID pgSelectByID
    pgUpdateReturning at h
  cases hs : env.pgSelect with
  | some m => simp [hs] at h
  | none =>
    cases hu : env.pgUpdate with
    | none => exact ⟨rfl, rfl⟩
    | some m =>
      simp only [hs, hu, record_tasks] at h
      cases hf : w.tasks.find? (fun r => r.ID == id) <;> simp [hf] at h

/-- After Update, GetByID returns the updated row when one of the two cache
writes of Update took effect and the read can be served: by the primary store, or
by the re-cached entry through a working cache lookup. -/
theorem GetByID_after_Update (js : Codec β) (env env2 : Env) (w : World β) (id : String)
    (req : TaskUpdateRequest) (stored : Task)
    (hrow : w.tasks.find? (fun r => r.ID == id) = some stored)
    (hsel : env.pgSelect = none) (hupd : env.pgUpdate = none)
    (hcache : env.redisDel = none ∨
      (env.redisSet = none ∧ ∃ data, js.marshal (patched stored req (env.now 0)) = .ok data))
    (hjson : ∀ data, js.marshal (patched stored req (env.now 0)) = .ok data →
      js.unmarshal data = .ok (patched stored req (env.now 0)))
    (hserved : env2.pgSelect = none ∨
      (env2.redisGet = none ∧ env.redisSet = none ∧
        ∃ data, js.marshal (patched stored req (env.now 0)) = .ok data)) :
    (TaskService.GetByID js env2 (TaskService.Update js env w id req).2 id).1
      = (some (patched stored req (env.now 0)), none) := by
  have hid : stored.ID = id := by
    have := List.find?_some hrow
    simpa using this
  obtain ⟨h1, hc1, hfind⟩ := Update_ok env w id req stored hrow hsel hupd
  obtain ⟨_, htasks, hcache2⟩ := Update_service js env w id req _ h1
  have hrow2 : (TaskService.Update js env w id req).2.tasks.find? (fun r => r.ID == id)
      = some (patched stored req (env.now 0)) := by rw [htasks]; exact hfind
  have hkey : (patched stored req (env.now 0)).ID = id := hid
  cases hget : env2.redisGet with
  | some msg =>
    have hstore : env2.pgSelect = none := by
      rcases hserved with h | ⟨h, -, -⟩
      · exact h
      · rw [hget] at h; cases h
    refine GetByID_fallthrough js env2 _ id _ ?_ hstore hrow2
    rw [GetTask_fault js env2 _ id msg hget]
  | none =>
    rw [hc1] at hcache2
    cases hm : js.marshal (patched stored req (env.now 0)) with
    | ok data =>
      cases hset : env.redisSet with
      | none =>
        have hfindc : (TaskService.Update js env w id req).2.cache.find?
            (fun e => e.key == taskCachePrefix ++ id)
            = some ⟨taskCachePrefix ++ id, data, taskCacheTTL⟩ := by
          rw [hcache2]; simp [cacheAfterSet, hm, hset, hkey]
        rw [GetByID_hit js env2 _ id _ _ hget hfindc (hjson data hm)]
      | some m =>
        have hdel : env.redisDel = none := by
          rcases hcache with h | ⟨h, _⟩
          · exact h
          · rw [hset] at h; cases h
        have hstore : env2.pgSelect = none := by
          rcases hserved with h | ⟨-, h, -⟩
          · exact h
          · rw [hset] at h; cases h
        refine GetByID_fallthrough js env2 _ id _ ?_ hstore hrow2
        rw [GetTask_miss js env2 _ id hget]
        rw [hcache2]
        simp only [cacheAfterSet, hm, hset, cacheAfterDel, hdel]
        exact find?_filter_key _ _
    | error e =>
      have hdel : env.redisDel = none := by
        rcases hcache with h | ⟨_, d, h⟩
        · exact h
        · rw [hm] at h; cases h
      have hstore : env2.pgSelect = none := by
        rcases hserved with h | ⟨-, -, d, h⟩
        · exact h
        · rw [hm] at h; cases h
      refine GetByID_fallthrough js env2 _ id _ ?_ hstore hrow2
      rw [GetTask_miss js env2 _ id hget]
      rw [hcache2]
      simp only [cacheAfterSet, hm, cacheAfterDel, hdel]
      exact find?_filter_key _ _

/-- C4 as stated fails at three inputs.  First, `sampleTask` is cached and both
cache writes of Update fail: Update succeeds and the following GetByID returns
the cached task, whose status is still "pending".  Second, the clock of the
update reads the stored `updated_at`: the following GetByID returns the same
`updated_at`, not a greater one.  Third, the invalidation of Update takes effect,
its re-caching fails, and the following GetByID cannot read the primary store: it
returns an error and no task. -/
theorem getByID_after_update_not_always_fresh :
    ((TaskService.Update plainCodec (cacheDownEnv 0 500) sampleWorld "t-1"
        ⟨none, none, some "completed", none⟩).1.2 = none ∧
      ∃ t, (TaskService.GetByID plainCodec (calmEnv 0 600)
          (TaskService.Update plainCodec (cacheDownEnv 0 500) sampleWorld "t-1"
            ⟨none, none, some "completed", none⟩).2 "t-1").1 = (some t, none) ∧
        t.Status ≠ "completed") ∧
    ((TaskService.Update plainCodec (calmEnv 0 100) sampleWorld "t-1"
        ⟨none, none, some "completed", none⟩).1.2 = none ∧
      ∃ t, (TaskService.GetByID plainCodec (calmEnv 0 600)
          (TaskService.Update plainCodec (calmEnv 0 100) sampleWorld "t-1"
            ⟨none, none, some "completed", none⟩).2 "t-1").1 = (some t, none) ∧
        ¬ sampleTask.UpdatedAt < t.UpdatedAt) ∧
    ((TaskService.Update plainCodec (recacheDownEnv 0 500) sampleWorld "t-1"
        ⟨none, none, some "completed", none⟩).1.2 = none ∧
      (TaskService.GetByID plainCodec (storeDownEnv 0 600)
          (TaskService.Update plainCodec (recacheDownEnv 0 500) sampleWorld "t-1"
            ⟨none, none, some "completed", none⟩).2 "t-1").1
        = (none, some (.wrap "service: get task"
            (.wrap "task not found" (.driver "connection refused"))))) :=
  ⟨⟨by decide, sampleTask, by decide, by decide⟩,
    ⟨by decide, { sampleTask with Status := "completed" }, by decide, by decide⟩,
    ⟨by decide, by decide⟩⟩

/-- C4 (amended): after a successful Update(id, status "completed") of an
existing task in which the cache invalidation or the re-caching took effect, a
following GetByID(id) that can be served, by the primary store or by the
re-cached entry through a working cache lookup, returns the task with status
"completed", with title, description, priority, ID and created_at unchanged, and
with updated_at equal to the clock reading of the update; that updated_at is
strictly greater than the former one when the reading is later than it. -/
theorem getByID_after_update_completed (js : Codec β) (env env2 : Env) (w : World β)
    (id : String) (stored : Task)
    (hrow : w.tasks.find? (fun r => r.ID == id) = some stored)
    (hok : (TaskService.Update js env w id ⟨none, none, some "completed", none⟩).1.2 = none)
    (hcache : env.redisDel = none ∨ (env.redisSet = none ∧ ∃ data,
      js.marshal { stored with Status := "completed", UpdatedAt := env.now 0 } = .ok data))
    (hjson : ∀ data,
      js.marshal { stored with Status := "completed", UpdatedAt := env.now 0 } = .ok data →
      js.unmarshal data = .ok { stored with Status := "completed", UpdatedAt := env.now 0 })
    (hserved : env2.pgSelect = none ∨ (env2.redisGet = none ∧ env.redisSet = none ∧ ∃ data,
      js.marshal { stored with Status := "completed", UpdatedAt := env.now 0 } = .ok data)) :
    ∃ t, (TaskService.GetByID js env2
        (TaskService.Update js env w id ⟨none, none, some "completed", none⟩).2 id).1
        = (some t, none) ∧
      t.Status = "completed" ∧ t.Title = stored.Title ∧ t.Description = stored.Description ∧
      t.Priority = stored.Priority ∧ t.ID = stored.ID ∧ t.CreatedAt = stored.CreatedAt ∧
      t.UpdatedAt = env.now 0 ∧
      (stored.UpdatedAt < env.now 0 → stored.UpdatedAt < t.UpdatedAt) := by
  obtain ⟨hsel, hupd⟩ := Update_success_faults js env w id _ hok
  exact ⟨_, GetByID_after_Update js env env2 w id ⟨none, none, some "completed", none⟩ stored
    hrow hsel hupd hcache hjson hserved, rfl, rfl, rfl, rfl, rfl, rfl, rfl, fun h => h⟩

theorem getByID_after_update_completed_witness :
    ∃ t, (TaskService.GetByID plainCodec (storeDownEnv 0 600)
        (TaskService.Update plainCodec (calmEnv 0 500) sampleWorld "t-1"
          ⟨none, none, some "completed", none⟩).2 "t-1").1 = (some t, none) ∧
      t.Status = "completed" ∧ t.Title = sampleTask.Title ∧
      t.Description = sampleTask.Description ∧
      t.Priority = sampleTask.Priority ∧ t.ID = sampleTask.ID ∧
      t.CreatedAt = sampleTask.CreatedAt ∧
      t.UpdatedAt = (calmEnv 0 500).now 0 ∧
      (sampleTask.UpdatedAt < (calmEnv 0 500).now 0 → sampleTask.UpdatedAt < t.UpdatedAt) :=
  getByID_after_update_completed plainCodec (calmEnv 0 500) (storeDownEnv 0 600) sampleWorld
    "t-1" sampleTask (by decide) (by decide) (Or.inl rfl) (fun data h => by cases h; rfl)
    (Or.inr ⟨rfl, rfl, _, rfl⟩)

/-! ### Delete -/

/-- The repository GetByID only appends to the trace. -/
theorem pgGetByID_world (env : Env) (w : World β) (id : String) :
    (PostgresRepository.GetByID env w id).2 = w.record (.pgSelect id) := by
  unfold PostgresRepository.GetByID pgSelectByID
  cases env.pgSelect with
  | some m => rfl
  | none =>
    simp only
    cases (w.record (.pgSelect id)).tasks.find? (fun r => r.ID == id) <;> rfl

/-- The service GetByID never changes the table. -/
theorem GetByID_tasks (js : Codec β) (env : Env) (w : World β) (id : String) :
    (TaskService.GetByID js env w id).2.tasks = w.tasks := by
  have h2 := GetTask_world js env w id
  unfold TaskService.GetByID
  rcases hg : RedisCache.GetTask js env w id with ⟨⟨c, err⟩, w1⟩
  rw [hg] at h2
  simp only at h2
  subst h2
  cases c with
  | some t => cases err <;> rfl
  | none =>
    simp only
    have h3 := pgGetByID_world env
      (if err.isSome = true then
        (w.record (.redisGet (taskCachePrefix ++ id))).warn "cache lookup failed"
       else w.record (.redisGet (taskCachePrefix ++ id))) id
    rcases hp : PostgresRepository.GetByID env
      (if err.isSome = true then
        (w.record (.redisGet (taskCachePrefix ++ id))).warn "cache lookup failed"
       else w.record (.redisGet (taskCachePrefix ++ id))) id with ⟨⟨r, e⟩, w3⟩
    rw [hp] at h3
    simp only at h3
    subst h3
    cases e with
    | some e => cases r <;> cases err <;> rfl
    | none =>
      cases r with
      | none => cases err <;> rfl
      | some t =>
        simp only
        have hs := (SetTask_world js env
          ((if err.isSome = true then
            (w.record (.redisGet (taskCachePrefix ++ id))).warn "cache lookup failed"
           else w.record (.redisGet (taskCachePrefix ++ id))).record (.pgSelect id)) t).1
        rcases hset : RedisCache.SetTask js env
          ((if err.isSome = true then
            (w.record (.redisGet (taskCachePrefix ++ id))).warn "cache lookup failed"
           else w.record (.redisGet (taskCachePrefix ++ id))).record (.pgSelect id)) t
          with ⟨e2, w4⟩
        rw [hset] at hs
        simp only at hs ⊢
        cases e2 <;> cases err <;> simp_all

/-- The service Delete as a function of the outcome of the DELETE statement. -/
theorem Delete_result (env : Env) (w : World β) (id : String) :
    (TaskService.Delete env w id).1 =
      match env.pgDelete with
      | some m => some (.wrap "service: delete task" (.wrap "failed to delete task" (.driver m)))
      | none =>
        if w.tasks.countP (fun r => r.ID == id) = 0 then
          some (.wrap "service: delete task" (.errorf "task not found"))
        else none := by
  have h1 := pgGetByID_world env w id
  unfold TaskService.Delete
  rcases hg : PostgresRepository.GetByID env w id with ⟨⟨t, e⟩, w1⟩
  rw [hg] at h1
  simp only at h1
  subst h1
  simp only [PostgresRepository.Delete, pgExecDelete]
  cases env.pgDelete with
  | some m => rfl
  | none =>
    simp only [record_tasks]
    split_ifs <;> rfl

/-- What a successful Delete leaves behind. -/
theorem Delete_ok_world (env : Env) (w : World β) (id : String)
    (h : (TaskService.Delete env w id).1 = none) :
    (TaskService.Delete env w id).2.tasks = w.tasks.filter (fun r => !(r.ID == id)) ∧
    (TaskService.Delete env w id).2.cache = cacheAfterDel env w.cache id := by
  have hr := Delete_result env w id
  rw [h] at hr
  have h1 := pgGetByID_world env w id
  unfold TaskService.Delete
  rcases hg : PostgresRepository.GetByID env w id with ⟨⟨t, e⟩, w1⟩
  rw [hg] at h1
  simp only at h1
  subst h1
  cases hd : env.pgDelete with
  | some m => simp [hd] at hr
  | none =>
    simp only [hd] at hr
    split_ifs at hr with hz
    simp only [PostgresRepository.Delete, pgExecDelete, hd, record_tasks, hz, if_false]
    have hi := InvalidateTask_world env
      ({ (w.record (.pgSelect id)).record (.pgDelete id) with
          tasks := w.tasks.filter (fun r => !(r.ID == id)) } : World β) id
    rcases hdel : RedisCache.InvalidateTask env
      ({ (w.record (.pgSelect id)).record (.pgDelete id) with
          tasks := w.tasks.filter (fun r => !(r.ID == id)) } : World β) id with ⟨e1, w3⟩
    rw [hdel] at hi
    simp only at hi ⊢
    cases e1 <;> simp_all [World.spawn]

theorem find?_filter_id (rows : List Task) (id : String) :
    (rows.filter (fun r => !(r.ID == id))).find? (fun r => r.ID == id) = none := by
  induction rows with
  | nil => rfl
  | cons r rest ih =>
    by_cases h : r.ID = id <;> simp [List.filter_cons, List.find?_cons, h, ih]

theorem countP_filter_id (rows : List Task) (id : String) :
    (rows.filter (fun r => !(r.ID == id))).countP (fun r => r.ID == id) = 0 := by
  induction rows with
  | nil => rfl
  | cons r rest ih =>
    by_cases h : r.ID = id <;> simp [List.filter_cons, List.countP_cons, h, ih]

/-- C5 as stated fails: `sampleTask` is cached, Delete succeeds while its cache
invalidation fails, and the following GetByID returns the cached task without an
error. -/
theorem getByID_after_delete_serves_stale_entry :
    (TaskService.Delete (cacheDownEnv 0 500) sampleWorld "t-1").1 = none ∧
    (TaskService.GetByID plainCodec (calmEnv 0 600)
        (TaskService.Delete (cacheDownEnv 0 500) sampleWorld "t-1").2 "t-1").1
      = (some sampleTask, none) :=
  ⟨by decide, by decide⟩

/-- C5 (amended): after a successful Delete(id), GetByID(id) fails with "task not
found" when the cache invalidation of Delete took effect or no entry for id was
cached before it; and whatever the cache does, also when that invalidation
failed with the entry cached, a second Delete(id) fails, with "task not found"
when its statement reaches the primary store. -/
theorem delete_then_not_found (js : Codec β) (env env2 env3 : Env) (w : World β) (id : String)
    (hok : (TaskService.Delete env w id).1 = none) :
    ((env.redisDel = none ∨
        w.cache.find? (fun e => e.key == taskCachePrefix ++ id) = none) →
      ∃ cause, (TaskService.GetByID js env2 (TaskService.Delete env w id).2 id).1
        = (none, some (.wrap "service: get task" (.wrap "task not found" cause)))) ∧
    (TaskService.Delete env3
        (TaskService.GetByID js env2 (TaskService.Delete env w id).2 id).2 id).1
      = some (.wrap "service: delete task"
          (match env3.pgDelete with
           | none => .errorf "task not found"
           | some m => .wrap "failed to delete task" (.driver m))) := by
  obtain ⟨htasks, hcache⟩ := Delete_ok_world env w id hok
  have hrow : (TaskService.Delete env w id).2.tasks.find? (fun r => r.ID == id) = none := by
    rw [htasks]; exact find?_filter_id _ _
  constructor
  · intro hinv
    have hnocache : (TaskService.Delete env w id).2.cache.find?
        (fun e => e.key == taskCachePrefix ++ id) = none := by
      rw [hcache]
      unfold cacheAfterDel
      cases hd : env.redisDel with
      | none => exact find?_filter_key _ _
      | some m =>
        rcases hinv with h | h
        · rw [hd] at h; cases h
        · exact h
    refine GetByID_absent js env2 _ id ?_ hrow
    cases hget : env2.redisGet with
    | some msg => rw [GetTask_fault js env2 _ id msg hget]
    | none => rw [GetTask_miss js env2 _ id hget hnocache]
  · rw [Delete_result, GetByID_tasks, htasks, countP_filter_id]
    cases env3.pgDelete <;> rfl

theorem delete_then_not_found_witness :
    (TaskService.Delete (cacheDownEnv 0 500) sampleWorld "t-1").1 = none ∧
    (((cacheDownEnv 0 500).redisDel = none ∨
        sampleWorld.cache.find? (fun e => e.key == taskCachePrefix ++ "t-1") = none) →
      ∃ cause, (TaskService.GetByID plainCodec (calmEnv 0 600)
          (TaskService.Delete (cacheDownEnv 0 500) sampleWorld "t-1").2 "t-1").1
        = (none, some (.wrap "service: get task" (.wrap "task not found" cause)))) ∧
    (TaskService.Delete (calmEnv 0 700)
        (TaskService.GetByID plainCodec (calmEnv 0 600)
          (TaskService.Delete (cacheDownEnv 0 500) sampleWorld "t-1").2 "t-1").2 "t-1").1
      = some (.wrap "service: delete task"
          (match (calmEnv 0 700).pgDelete with
           | none => .errorf "task not found"
           | some m => .wrap "failed to delete task" (.driver m))) :=
  ⟨by decide,
    delete_then_not_found plainCodec (cacheDownEnv 0 500) (calmEnv 0 600) (calmEnv 0 700)
      sampleWorld "t-1" (by decide)⟩

/-! ### Reads served by the cache, reads with the cache down -/

/-- C6: when the cache holds a decodable entry for id and the lookup reaches the
cache, GetByID returns the cached task without error after a single Redis read:
no statement is sent to the primary store, nothing is written to the cache, and
the table plays no part in the result. -/
theorem getByID_cache_hit (js : Codec β) (env : Env) (w : World β) (id : String)
    (e : CacheEntry β) (t : Task) (hget : env.redisGet = none)
    (hentry : w.cache.find? (fun e => e.key == taskCachePrefix ++ id) = some e)
    (hdecode : js.unmarshal e.data = .ok t) :
    (TaskService.GetByID js env w id).1 = (some t, none) ∧
    (TaskService.GetByID js env w id).2.trace
      = w.trace ++ [.redisGet (taskCachePrefix ++ id), .debug "cache hit"] ∧
    (TaskService.GetByID js env w id).2.cache = w.cache ∧
    (TaskService.GetByID js env w id).2.tasks = w.tasks ∧
    ∀ (env2 : Env) (rows : List Task), env2.redisGet = none →
      (TaskService.GetByID js env2 { w with tasks := rows } id).1 = (some t, none) := by
  rw [GetByID_hit js env w id e t hget hentry hdecode]
  refine ⟨rfl, ?_, rfl, rfl, ?_⟩
  · simp [World.debug, World.record]
  · intro env2 rows h2
    rw [GetByID_hit js env2 { w with tasks := rows } id e t h2 hentry hdecode]

theorem getByID_cache_hit_witness :
    (TaskService.GetByID plainCodec (calmEnv 0 600) sampleWorld "t-1").1
      = (some sampleTask, none) ∧
    (TaskService.GetByID plainCodec (calmEnv 0 600) sampleWorld "t-1").2.trace
      = sampleWorld.trace ++ [.redisGet (taskCachePrefix ++ "t-1"), .debug "cache hit"] ∧
    (TaskService.GetByID plainCodec (calmEnv 0 600) sampleWorld "t-1").2.cache
      = sampleWorld.cache ∧
    (TaskService.GetByID plainCodec (calmEnv 0 600) sampleWorld "t-1").2.tasks
      = sampleWorld.tasks ∧
    ∀ (env2 : Env) (rows : List Task), env2.redisGet = none →
      (TaskService.GetByID plainCodec env2 { sampleWorld with tasks := rows } "t-1").1
        = (some sampleTask, none) :=
  getByID_cache_hit plainCodec (calmEnv 0 600) sampleWorld "t-1" ⟨"task:t-1", sampleTask, 300⟩
    sampleTask rfl (by decide) rfl

/-- C7: when the row for id is in the primary store and the cache lookup fails,
GetByID succeeds and returns that row, whether or not the cache write that
follows fails as well; and in no world does GetByID return the error of a cache
lookup: an error it returns wraps the error of the primary store read. -/
theorem getByID_cache_down (js : Codec β) (env : Env) (w : World β) (id msg : String)
    (row : Task) (hrow : w.tasks.find? (fun r => r.ID == id) = some row)
    (hstore : env.pgSelect = none) (hget : env.redisGet = some msg) :
    (TaskService.GetByID js env w id).1 = (some row, none) ∧
    ∀ (w2 : World β) (id2 : String) (e : GoError),
      (TaskService.GetByID js env w2 id2).1.2 = some e →
      e = .wrap "service: get task" (.wrap "task not found" .pgxNoRows) := by
  constructor
  · refine GetByID_fallthrough js env w id row ?_ hstore hrow
    rw [GetTask_fault js env w id msg hget]
  · intro w2 id2 e he
    obtain ⟨cause, rfl, hc | ⟨m, hm, -⟩⟩ := GetByID_error_shape js env w2 id2 e he
    · rw [hc]
    · rw [hstore] at hm; cases hm

theorem getByID_cache_down_witness :
    sampleWorld.tasks.find? (fun r => r.ID == "t-1") = some sampleTask ∧
    (TaskService.GetByID plainCodec (cacheDownEnv 0 600) sampleWorld "t-1").1
      = (some sampleTask, none) :=
  ⟨by decide,
    (getByID_cache_down plainCodec (cacheDownEnv 0 600) sampleWorld "t-1"
      "dial tcp: connection refused" sampleTask (by decide) rfl rfl).1⟩

/-! ### Cache and audit failures do not reach the caller -/

theorem Create_result (js : Codec β) (env : Env) (w : World β) (req : TaskCreateRequest) :
    (TaskService.Create js env w req).1
      = serviceResult "service: create task" (PostgresRepository.Create env w req).1 := by
  unfold TaskService.Create
  rcases PostgresRepository.Create env w req with ⟨⟨_ | t, _ | e⟩, w1⟩ <;> rfl

theorem Update_result (js : Codec β) (env : Env) (w : World β) (id : String)
    (req : TaskUpdateRequest) :
    (TaskService.Update js env w id req).1
      = serviceResult "service: update task" (PostgresRepository.Update env w id req).1 := by
  unfold TaskService.Update
  rcases PostgresRepository.Update env w id req with ⟨⟨_ | t, _ | e⟩, w1⟩ <;> rfl

theorem pgCreate_congr (env1 env2 : Env) (w1 w2 : World β) (req : TaskCreateRequest)
    (henv : Env.samePrimary env1 env2) (hw : w1.tasks = w2.tasks) :
    (PostgresRepository.Create env1 w1 req).1 = (PostgresRepository.Create env2 w2 req).1 := by
  obtain ⟨hr, hn, hi, -, -, -⟩ := henv
  unfold PostgresRepository.Create pgInsertReturning
  simp only [hr, hn, hi, record_tasks, hw]
  cases env2.pgInsert with
  | some m => rfl
  | none => simp only; split_ifs <;> rfl

theorem pgGetByID_congr (env1 env2 : Env) (w1 w2 : World β) (id : String)
    (hs : env1.pgSelect = env2.pgSelect) (hw : w1.tasks = w2.tasks) :
    (PostgresRepository.GetByID env1 w1 id).1 = (PostgresRepository.GetByID env2 w2 id).1 := by
  unfold PostgresRepository.GetByID pgSelectByID
  simp only [hs, record_tasks, hw]
  cases env2.pgSelect with
  | some m => rfl
  | none =>
    simp only
    cases w2.tasks.find? (fun r => r.ID == id) <;> rfl

theorem pgUpdateReturning_congr (fault : Option String) (w1 w2 : World β) (id : String)
    (a b c d : String) (t : Time) (hw : w1.tasks = w2.tasks) :
    (pgUpdateReturning fault w1 id a b c d t).1 = (pgUpdateReturning fault w2 id a b c d t).1 := by
  unfold pgUpdateReturning
  cases fault with
  | some m => rfl
  | none =>
    simp only [record_tasks, hw]
    have key : ∀ (o : Option Task) (wa wb wc wd : World β),
        (match o with
          | none => ((Except.error GoError.pgxNoRows : Except GoError Task), wa)
          | some row => (Except.ok row, wb)).1
        = (match o with
          | none => ((Except.error GoError.pgxNoRows : Except GoError Task), wc)
          | some row => (Except.ok row, wd)).1 := by
      intro o wa wb wc wd
      cases o <;> rfl
    exact key _ _ _ _ _

theorem updateWrap_congr (p q : Except GoError Task × World β) (h : p.1 = q.1) :
    (match p with
      | (.error err, w2) =>
        (((none : Option Task), some (GoError.wrap "failed to update task" err)), w2)
      | (.ok task, w2) => ((some task, none), w2)).1
    = (match q with
      | (.error err, w2) =>
        (((none : Option Task), some (GoError.wrap "failed to update task" err)), w2)
      | (.ok task, w2) => ((some task, none), w2)).1 := by
  rcases p with ⟨_ | _, wp⟩ <;> rcases q with ⟨_ | _, wq⟩ <;> simp_all

theorem pgUpdate_congr (env1 env2 : Env) (w1 w2 : World β) (id : String)
    (req : TaskUpdateRequest) (henv : Env.samePrimary env1 env2) (hw : w1.tasks = w2.tasks) :
    (PostgresRepository.Update env1 w1 id req).1 = (PostgresRepository.Update env2 w2 id req).1 := by
  obtain ⟨-, hn, -, hs, hu, -⟩ := henv
  have hg := pgGetByID_congr env1 env2 w1 w2 id hs hw
  have ha := pgGetByID_world env1 w1 id
  have hb := pgGetByID_world env2 w2 id
  unfold PostgresRepository.Update
  rcases h1 : PostgresRepository.GetByID env1 w1 id with ⟨⟨r1, e1⟩, wa⟩
  rcases h2 : PostgresRepository.GetByID env2 w2 id with ⟨⟨r2, e2⟩, wb⟩
  rw [h1, h2] at hg
  rw [h1] at ha
  rw [h2] at hb
  simp only [Prod.mk.injEq] at hg ha hb
  obtain ⟨rfl, rfl⟩ := hg
  subst ha hb
  cases e1 with
  | some e => cases r1 <;> rfl
  | none =>
    cases r1 with
    | none => rfl
    | some existing =>
      refine updateWrap_congr _ _ ?_
      rw [hn, hu]
      exact pgUpdateReturning_congr _ _ _ _ _ _ _ _ _ (by simpa using hw)

theorem pgCreate_not_nil (env : Env) (w : World β) (req : TaskCreateRequest) :
    (PostgresRepository.Create env w req).1 ≠ (none, none) := by
  unfold PostgresRepository.Create pgInsertReturning
  cases env.pgInsert with
  | some m => simp
  | none => simp only; split_ifs <;> simp

theorem pgUpdate_not_nil (env : Env) (w : World β) (id : String) (req : TaskUpdateRequest) :
    (PostgresRepository.Update env w id req).1 ≠ (none, none) := by
  unfold PostgresRepository.Update PostgresRepository.GetByID pgSelectByID
  cases env.pgSelect with
  | some m => simp
  | none =>
    simp only [record_tasks]
    cases w.tasks.find? (fun r => r.ID == id) with
    | none => simp
    | some row =>
      simp only
      generalize pgUpdateReturning _ _ _ _ _ _ _ _ = res
      rcases res with ⟨_ | _, w2⟩ <;> simp

/-- The service Delete wraps the error of the repository Delete, run after the
read that recovers the title. -/
theorem Delete_result_repo (env : Env) (w : World β) (id : String) :
    (TaskService.Delete env w id).1
      = (PostgresRepository.Delete env (PostgresRepository.GetByID env w id).2 id).1.map
          (GoError.wrap "service: delete task") := by
  unfold TaskService.Delete
  rcases PostgresRepository.GetByID env w id with ⟨⟨t, e⟩, w1⟩
  simp only
  rcases PostgresRepository.Delete env w1 id with ⟨_ | err, w2⟩ <;> rfl

theorem pgDelete_congr (env1 env2 : Env) (w1 w2 : World β) (id : String)
    (hd : env1.pgDelete = env2.pgDelete) (hw : w1.tasks = w2.tasks) :
    (PostgresRepository.Delete env1 w1 id).1 = (PostgresRepository.Delete env2 w2 id).1 := by
  unfold PostgresRepository.Delete pgExecDelete
  simp only [hd, record_tasks, hw]
  cases env2.pgDelete with
  | some m => rfl
  | none => simp only; split_ifs <;> rfl

/-- C8: the task and the error returned by Create, Update and Delete are a
function of the result of the primary store alone; two runs from the same table
with the same request that differ only in the cache content, the codec and the
outcome of the Redis and MongoDB calls return the same; and each operation
returns the success of the primary store whenever its write succeeded. -/
theorem outcome_determined_by_primary_store (js1 js2 : Codec β) (env1 env2 : Env)
    (w1 w2 : World β) (req : TaskCreateRequest) (id : String) (upd : TaskUpdateRequest)
    (henv : Env.samePrimary env1 env2) (hw : w1.tasks = w2.tasks) :
    ((TaskService.Create js1 env1 w1 req).1
        = serviceResult "service: create task" (PostgresRepository.Create env1 w1 req).1 ∧
      (TaskService.Update js1 env1 w1 id upd).1
        = serviceResult "service: update task" (PostgresRepository.Update env1 w1 id upd).1 ∧
      (TaskService.Delete env1 w1 id).1
        = (PostgresRepository.Delete env1 (PostgresRepository.GetByID env1 w1 id).2 id).1.map
            (GoError.wrap "service: delete task")) ∧
    ((TaskService.Create js1 env1 w1 req).1 = (TaskService.Create js2 env2 w2 req).1 ∧
      (TaskService.Update js1 env1 w1 id upd).1 = (TaskService.Update js2 env2 w2 id upd).1 ∧
      (TaskService.Delete env1 w1 id).1 = (TaskService.Delete env2 w2 id).1) ∧
    (((PostgresRepository.Create env1 w1 req).1.2 = none →
        (TaskService.Create js1 env1 w1 req).1 = (PostgresRepository.Create env1 w1 req).1 ∧
        (TaskService.Create js1 env1 w1 req).1.1 ≠ none) ∧
      ((PostgresRepository.Update env1 w1 id upd).1.2 = none →
        (TaskService.Update js1 env1 w1 id upd).1 = (PostgresRepository.Update env1 w1 id upd).1 ∧
        (TaskService.Update js1 env1 w1 id upd).1.1 ≠ none) ∧
      ((PostgresRepository.Delete env1 (PostgresRepository.GetByID env1 w1 id).2 id).1 = none →
        (TaskService.Delete env1 w1 id).1 = none)) := by
  refine ⟨⟨Create_result _ _ _ _, Update_result _ _ _ _ _, Delete_result_repo _ _ _⟩,
    ⟨?_, ?_, ?_⟩, ⟨?_, ?_, ?_⟩⟩
  · rw [Create_result, Create_result, pgCreate_congr env1 env2 w1 w2 req henv hw]
  · rw [Update_result, Update_result, pgUpdate_congr env1 env2 w1 w2 id upd henv hw]
  · rw [Delete_result_repo, Delete_result_repo]
    rw [pgDelete_congr env1 env2 (PostgresRepository.GetByID env1 w1 id).2
      (PostgresRepository.GetByID env2 w2 id).2 id henv.2.2.2.2.2
      (by rw [pgGetByID_world, pgGetByID_world]; simpa using hw)]
  · intro h
    have hn := pgCreate_not_nil env1 w1 req
    rw [Create_result]
    rcases hr : (PostgresRepository.Create env1 w1 req).1 with ⟨_ | t, _ | e⟩ <;>
      simp_all [serviceResult]
  · intro h
    have hn := pgUpdate_not_nil env1 w1 id upd
    rw [Update_result]
    rcases hr : (PostgresRepository.Update env1 w1 id upd).1 with ⟨_ | t, _ | e⟩ <;>
      simp_all [serviceResult]
  · intro h
    rw [Delete_result_repo, h]
    rfl

theorem outcome_determined_by_primary_store_witness :
    Env.samePrimary (calmEnv 7 100) (cacheDownEnv 7 100) ∧
    (TaskService.Create plainCodec (calmEnv 7 100) sampleWorld ⟨"Write spec", "", "high"⟩).1
      = (TaskService.Create plainCodec (cacheDownEnv 7 100) coldWorld
          ⟨"Write spec", "", "high"⟩).1 ∧
    (TaskService.Update plainCodec (calmEnv 7 100) sampleWorld "t-1"
        ⟨none, none, some "completed", none⟩).1
      = (TaskService.Update plainCodec (cacheDownEnv 7 100) coldWorld "t-1"
          ⟨none, none, some "completed", none⟩).1 ∧
    (TaskService.Delete (calmEnv 7 100) sampleWorld "t-1").1
      = (TaskService.Delete (cacheDownEnv 7 100) coldWorld "t-1").1 :=
  ⟨⟨rfl, rfl, rfl, rfl, rfl, rfl⟩,
    (outcome_determined_by_primary_store plainCodec plainCodec (calmEnv 7 100)
      (cacheDownEnv 7 100) sampleWorld coldWorld
      ⟨"Write spec", "", "high"⟩ "t-1" ⟨none, none, some "completed", none⟩
      ⟨rfl, rfl, rfl, rfl, rfl, rfl⟩ rfl).2.1⟩

/-! ### Listing -/

theorem wrapInt64_of_range (x : Int) (hlo : -2 ^ 63 ≤ x) (hhi : x < 2 ^ 63) :
    wrapInt64 x = x := by
  unfold wrapInt64
  rw [Int.emod_eq_of_lt (by omega) (by omega)]
  omega

theorem pgQueryPage_world (fault : Option String) (w : World β) (status : String)
    (limit offset : Int) :
    (pgQueryPage fault w status limit offset).2 = w.record (.pgQuery status limit offset) := by
  unfold pgQueryPage
  cases fault with
  | some m => rfl
  | none => simp only; split_ifs <;> rfl

/-- The two statements List sends when the count succeeds: the count, then the
page query with the clamped page size and the offset computed in Go `int`. -/
theorem List_trace (env : Env) (w : World β) (page perPage : Int) (status : String)
    (hcount : env.pgCount = none) :
    (PostgresRepository.List env w page perPage status).2.trace
      = w.trace ++ [.pgCount status,
          .pgQuery status (if perPage < 1 ∨ perPage > 100 then 20 else perPage)
            (wrapInt64 (wrapInt64 ((if page < 1 then 1 else page) - 1) *
              (if perPage < 1 ∨ perPage > 100 then 20 else perPage)))] := by
  unfold PostgresRepository.List pgCount
  simp only [hcount]
  generalize hq : pgQueryPage _ _ _ _ _ = res
  have hw := congrArg Prod.snd hq
  rw [pgQueryPage_world] at hw
  rcases res with ⟨_ | rows, w2⟩
  · simp only at hw ⊢
    subst hw
    simp [World.record]
  · simp only at hw ⊢
    subst hw
    cases scanRows env.pgScan rows.rows none <;> simp [World.record]

/-- In the range of Go `int` the offset is (page' - 1) × perPage'. -/
theorem List_trace_in_range (env : Env) (w : World β) (page perPage : Int) (status : String)
    (hcount : env.pgCount = none) (hpage : page < 2 ^ 63)
    (hprod : (max page 1 - 1) * (if 1 ≤ perPage ∧ perPage ≤ 100 then perPage else 20) < 2 ^ 63) :
    (PostgresRepository.List env w page perPage status).2.trace
      = w.trace ++ [.pgCount status,
          .pgQuery status (if 1 ≤ perPage ∧ perPage ≤ 100 then perPage else 20)
            ((max page 1 - 1) * (if 1 ≤ perPage ∧ perPage ≤ 100 then perPage else 20))] := by
  rw [List_trace env w page perPage status hcount]
  have hp : (if page < 1 then 1 else page) = max page 1 := by
    split_ifs with h
    · rw [max_eq_right (by omega)]
    · rw [max_eq_left (by omega)]
  have hq : (if perPage < 1 ∨ perPage > 100 then (20 : Int) else perPage)
      = (if 1 ≤ perPage ∧ perPage ≤ 100 then perPage else 20) := by
    split_ifs <;> omega
  rw [hp, hq]
  have h1 : (1 : Int) ≤ max page 1 := le_max_right _ _
  have h2 : max page 1 < 2 ^ 63 := max_lt hpage (by norm_num)
  rw [wrapInt64_of_range (max page 1 - 1) (by omega) (by omega)]
  have h3 : (0 : Int) ≤ (if 1 ≤ perPage ∧ perPage ≤ 100 then perPage else 20) := by
    split_ifs <;> omega
  rw [wrapInt64_of_range _ (by nlinarith) hprod]

/-- C9 fails on the code for a page the handler can pass: with page = 2^62 + 1 and
perPage = 20 the product (page - 1) × perPage = 5 × 2^64 overflows Go `int` and the
query is sent with OFFSET 0, so List returns the first page; with page = 2^63 - 1
the query is sent with OFFSET -40, and List returns the nil slice, the total and
no error. -/
theorem list_offset_overflows :
    (PostgresRepository.List (calmEnv 0 0) coldWorld 4611686018427387905 20 "").2.trace
      = [.pgCount "", .pgQuery "" 20 0] ∧
    (PostgresRepository.List (calmEnv 0 0) coldWorld 4611686018427387905 20 "").1
      = (some [sampleTask], 1, none) ∧
    (PostgresRepository.List (calmEnv 0 0) coldWorld 9223372036854775807 20 "").2.trace
      = [.pgCount "", .pgQuery "" 20 (-40)] ∧
    (PostgresRepository.List (calmEnv 0 0) coldWorld 9223372036854775807 20 "").1
      = (none, 1, none) :=
  ⟨by decide, by decide, by decide, by decide⟩

theorem scanRows_none (rows : List Task) (acc : Option (List Task)) :
    scanRows none rows acc
      = .ok (match rows with
        | [] => acc
        | _ :: _ => some (acc.getD [] ++ rows)) := by
  induction rows generalizing acc with
  | nil => rfl
  | cons t rest ih =>
    rw [scanRows, ih]
    cases rest <;> simp

/-- A scan that ends without error has appended every row. -/
theorem scanRows_ok (fault : Option String) (rows : List Task) (r : Option (List Task))
    (h : scanRows fault rows none = .ok r) :
    r = if rows = [] then none else some rows := by
  cases fault with
  | none =>
    rw [scanRows_none] at h
    cases rows with
    | nil => simpa using h.symm
    | cons t rest => simpa using h.symm
  | some m =>
    cases rows with
    | nil => simpa [scanRows] using h.symm
    | cons t rest => simp [scanRows] at h

theorem pgQueryPage_ok (fault : Option String) (w : World β) (status : String)
    (limit offset : Int) (rs : PgRows)
    (h : (pgQueryPage fault w status limit offset).1 = .ok rs) :
    rs.rows = if limit < 0 ∨ offset < 0 then []
      else ((orderByCreatedAtDesc (whereStatus status w.tasks)).drop offset.toNat).take
        limit.toNat := by
  unfold pgQueryPage at h
  cases fault with
  | some m => simp at h
  | none =>
    simp only [record_tasks] at h
    split_ifs at h with h1 h2 <;> simp only [Except.ok.injEq] at h <;> subst h
    · simp [h1]
    · simp [h2]
    · have : ¬ (limit < 0 ∨ offset < 0) := by omega
      simp [this]

/-- A List that returns no error returns the rows the result set delivered (none
when PostgreSQL rejected a negative OFFSET) and the count of the rows selected by
the filter. -/
theorem List_ok (env : Env) (w : World β) (page perPage : Int) (status : String)
    (hok : (PostgresRepository.List env w page perPage status).1.2.2 = none) :
    ∃ rows : List Task,
      rows = (if wrapInt64 (wrapInt64 ((if page < 1 then 1 else page) - 1) *
            (if perPage < 1 ∨ perPage > 100 then 20 else perPage)) < 0 then []
          else ((orderByCreatedAtDesc (whereStatus status w.tasks)).drop
            (wrapInt64 (wrapInt64 ((if page < 1 then 1 else page) - 1) *
              (if perPage < 1 ∨ perPage > 100 then 20 else perPage))).toNat).take
            (if perPage < 1 ∨ perPage > 100 then 20 else perPage).toNat) ∧
      (PostgresRepository.List env w page perPage status).1
        = (if rows = [] then none else some rows,
           ((whereStatus status w.tasks).length : Int), none) := by
  unfold PostgresRepository.List pgCount at hok ⊢
  cases hc : env.pgCount with
  | some m => simp [hc] at hok
  | none =>
    simp only [hc] at hok ⊢
    generalize hq : pgQueryPage _ _ _ _ _ = res at hok ⊢
    have h1 := congrArg Prod.fst hq
    rcases res with ⟨_ | rs, w2⟩
    · simp at hok
    · simp only at h1 hok ⊢
      have hrows := pgQueryPage_ok _ _ _ _ _ _ h1
      simp only [record_tasks] at hrows
      have hlim : ¬ (if perPage < 1 ∨ perPage > 100 then (20 : Int) else perPage) < 0 := by
        split_ifs <;> omega
      simp only [hlim, false_or] at hrows
      cases hs : scanRows env.pgScan rs.rows none with
      | error e => simp [hs] at hok
      | ok r =>
        have hr := scanRows_ok _ _ _ hs
        simp only [record_tasks]
        exact ⟨rs.rows, hrows, by rw [hr]⟩

theorem orderByCreatedAtDesc_sorted (rows : List Task) :
    (orderByCreatedAtDesc rows).Pairwise (fun a b => b.CreatedAt ≤ a.CreatedAt) := by
  haveI : IsTotal Task (fun a b => b.CreatedAt ≤ a.CreatedAt) :=
    ⟨fun a b => le_total b.CreatedAt a.CreatedAt⟩
  haveI : IsTrans Task (fun a b => b.CreatedAt ≤ a.CreatedAt) :=
    ⟨fun _ _ _ hab hbc => le_trans hbc hab⟩
  exact List.sorted_insertionSort (fun a b => b.CreatedAt ≤ a.CreatedAt) rows

theorem mem_orderByCreatedAtDesc (rows : List Task) (t : Task) :
    t ∈ orderByCreatedAtDesc rows ↔ t ∈ rows :=
  (List.perm_insertionSort (fun a b => b.CreatedAt ≤ a.CreatedAt) rows).mem_iff

/-- The page List returns while (page' - 1) × perPage' fits Go `int`: for a
non-empty status filter only stored tasks whose status is the filter, ordered by
created_at descending, the at most perPage' rows that follow the first
(page' - 1) × perPage' rows of the filtered, ordered table; the total is the
number of all stored tasks with that status, and with the empty filter the
number of all stored tasks. -/
theorem List_page_in_range (env : Env) (w : World β) (page perPage : Int) (status : String)
    (hok : (PostgresRepository.List env w page perPage status).1.2.2 = none)
    (hpage : page < 2 ^ 63)
    (hprod : (max page 1 - 1) * (if 1 ≤ perPage ∧ perPage ≤ 100 then perPage else 20) < 2 ^ 63) :
    ∃ rows : List Task,
      rows = ((orderByCreatedAtDesc (whereStatus status w.tasks)).drop
          ((max page 1 - 1) * (if 1 ≤ perPage ∧ perPage ≤ 100 then perPage else 20)).toNat).take
          (if 1 ≤ perPage ∧ perPage ≤ 100 then perPage else 20).toNat ∧
      (PostgresRepository.List env w page perPage status).1.1
        = (if rows = [] then none else some rows) ∧
      (status ≠ "" → ∀ t ∈ rows, t.Status = status) ∧
      (∀ t ∈ rows, t ∈ w.tasks) ∧
      rows.Pairwise (fun a b => b.CreatedAt ≤ a.CreatedAt) ∧
      (rows.length : Int) ≤ (if 1 ≤ perPage ∧ perPage ≤ 100 then perPage else 20) ∧
      (status ≠ "" → (PostgresRepository.List env w page perPage status).1.2.1
        = (w.tasks.countP (fun t => t.Status == status) : Int)) ∧
      (status = "" → (PostgresRepository.List env w page perPage status).1.2.1
        = (w.tasks.length : Int)) := by
  obtain ⟨rows, hrows, hL⟩ := List_ok env w page perPage status hok
  have hp : (if page < 1 then 1 else page) = max page 1 := by
    split_ifs with h
    · rw [max_eq_right (by omega)]
    · rw [max_eq_left (by omega)]
  have hq : (if perPage < 1 ∨ perPage > 100 then (20 : Int) else perPage)
      = (if 1 ≤ perPage ∧ perPage ≤ 100 then perPage else 20) := by
    split_ifs <;> omega
  have h1 : (1 : Int) ≤ max page 1 := le_max_right _ _
  have h2 : max page 1 < 2 ^ 63 := max_lt hpage (by norm_num)
  have h3 : (0 : Int) ≤ (if 1 ≤ perPage ∧ perPage ≤ 100 then perPage else 20) := by
    split_ifs <;> omega
  have hnn : (0 : Int) ≤ (max page 1 - 1) *
      (if 1 ≤ perPage ∧ perPage ≤ 100 then perPage else 20) :=
    mul_nonneg (by omega) h3
  rw [hp, hq, wrapInt64_of_range (max page 1 - 1) (by omega) (by omega),
    wrapInt64_of_range _ (by omega) hprod, if_neg (by omega)] at hrows
  refine ⟨rows, hrows, ?_, ?_, ?_, ?_, ?_, ?_, ?_⟩
  · rw [hL]
  · intro hs t ht
    rw [hrows] at ht
    have hmem := List.mem_of_mem_drop (List.mem_of_mem_take ht)
    rw [mem_orderByCreatedAtDesc] at hmem
    simp only [whereStatus, bne_iff_ne, ne_eq, hs, not_false_eq_true, if_true] at hmem
    simpa using (List.mem_filter.mp hmem).2
  · intro t ht
    rw [hrows] at ht
    have hmem := List.mem_of_mem_drop (List.mem_of_mem_take ht)
    rw [mem_orderByCreatedAtDesc] at hmem
    unfold whereStatus at hmem
    split_ifs at hmem
    · exact (List.mem_filter.mp hmem).1
    · exact hmem
  · rw [hrows]
    exact ((orderByCreatedAtDesc_sorted _).sublist (List.drop_sublist _ _)).sublist
      (List.take_sublist _ _)
  · rw [hrows]
    have hlen := List.length_take_le
      (if 1 ≤ perPage ∧ perPage ≤ 100 then perPage else (20 : Int)).toNat
      ((orderByCreatedAtDesc (whereStatus status w.tasks)).drop
        ((max page 1 - 1) * (if 1 ≤ perPage ∧ perPage ≤ 100 then perPage else 20)).toNat)
    omega
  · intro hs
    rw [hL]
    simp [whereStatus, hs, List.countP_eq_length_filter]
  · intro hs
    rw [hL]
    simp [whereStatus, hs]

/-- C10 fails on the code where the offset of the page overflows Go `int`, the
defect of C9.  Three tasks are stored, two of them pending.  For page = 2^62 + 1,
perPage = 20 and the filter "pending", no row follows the first
(page - 1) × perPage rows of the filtered, ordered table, yet List returns both
pending tasks, the rows of page 1, and the handler answers 200 with them. -/
theorem list_page_at_overflowing_offset :
    ((orderByCreatedAtDesc (whereStatus "pending" busyWorld.tasks)).drop
        ((4611686018427387905 - 1) * 20)).take 20 = [] ∧
    (PostgresRepository.List (calmEnv 0 0) busyWorld 4611686018427387905 20 "pending").1
      = (some [⟨"t-3", "Ship", "", "pending", "medium", 300, 300⟩,
               ⟨"t-1", "Write spec", "", "pending", "high", 100, 100⟩], 2, none) ∧
    (TaskService.List (calmEnv 0 0) busyWorld 4611686018427387905 20 "pending").1
      = (some { Data := some [⟨"t-3", "Ship", "", "pending", "medium", 300, 300⟩,
                              ⟨"t-1", "Write spec", "", "pending", "high", 100, 100⟩]
                Total := 2, Page := 4611686018427387905, PerPage := 20 }, none) ∧
    (TaskHandler.ListTasks (calmEnv 0 0) busyWorld (some "4611686018427387905") (some "20")
        (some "pending")).1
      = ⟨200, .list
          { Data := some [⟨"t-3", "Ship", "", "pending", "medium", 300, 300⟩,
                          ⟨"t-1", "Write spec", "", "pending", "high", 100, 100⟩]
            Total := 2, Page := 4611686018427387905, PerPage := 20 }⟩ :=
  ⟨by decide, by decide, by decide, by decide⟩

/-! ### The paging fields of the list response -/

/-- C11 fails on the code: for `GET /api/tasks?page=abc&per_page=abc` the handler
passes page 0 and perPage 0; the query is sent with LIMIT 20 OFFSET 0 (page 1,
page size 20) and returns three tasks, while the response carries page 0 and
per_page 0.  With page -3 and perPage 1000 the response carries -3 and 1000 for
the same query. -/
theorem list_response_echoes_raw_paging :
    (TaskHandler.ListTasks (calmEnv 0 0) busyWorld (some "abc") (some "abc") none).1
      = ⟨200, .list
          { Data := some [⟨"t-3", "Ship", "", "pending", "medium", 300, 300⟩,
                          ⟨"t-2", "Review", "", "completed", "low", 200, 250⟩,
                          ⟨"t-1", "Write spec", "", "pending", "high", 100, 100⟩]
            Total := 3, Page := 0, PerPage := 0 }⟩ ∧
    (TaskHandler.ListTasks (calmEnv 0 0) busyWorld (some "abc") (some "abc") none).2.trace
      = [.pgCount "", .pgQuery "" 20 0] ∧
    (TaskService.List (calmEnv 0 0) busyWorld (-3) 1000 "").1
      = (some
          { Data := some [⟨"t-3", "Ship", "", "pending", "medium", 300, 300⟩,
                          ⟨"t-2", "Review", "", "completed", "low", 200, 250⟩,
                          ⟨"t-1", "Write spec", "", "pending", "high", 100, 100⟩]
            Total := 3, Page := -3, PerPage := 1000 }, none) ∧
    (TaskService.List (calmEnv 0 0) busyWorld (-3) 1000 "").2.trace
      = [.pgCount "", .pgQuery "" 20 0] :=
  ⟨by decide, by decide, by decide, by decide⟩

/-- The service List fails exactly when the repository List fails. -/
theorem List_service_ok (env : Env) (w : World β) (page perPage : Int) (status : String)
    (hok : (TaskService.List env w page perPage status).1.2 = none) :
    (PostgresRepository.List env w page perPage status).1.2.2 = none ∧
    (TaskService.List env w page perPage status).1
      = (some { Data := if (PostgresRepository.List env w page perPage status).1.1 = none
                  then some [] else (PostgresRepository.List env w page perPage status).1.1
                Total := (PostgresRepository.List env w page perPage status).1.2.1
                Page := page, PerPage := perPage }, none) := by
  unfold TaskService.List at hok ⊢
  generalize PostgresRepository.List env w page perPage status = res at hok ⊢
  rcases res with ⟨⟨tasks, total, _ | err⟩, w1⟩
  · exact ⟨rfl, rfl⟩
  · simp at hok

/-- C12: the Data field of the response of a successful List is never the nil
slice: it is the empty sequence when the repository returns no rows (a nil
slice), and otherwise the rows the repository returned, in their order. -/
theorem list_data_is_never_nil (env : Env) (w : World β) (page perPage : Int)
    (status : String) (hok : (TaskService.List env w page perPage status).1.2 = none) :
    ∃ resp, (TaskService.List env w page perPage status).1 = (some resp, none) ∧
      resp.Data ≠ none ∧
      ((PostgresRepository.List env w page perPage status).1.1 = none → resp.Data = some []) ∧
      (∀ rows, (PostgresRepository.List env w page perPage status).1.1 = some rows →
        resp.Data = some rows) := by
  obtain ⟨-, hresp⟩ := List_service_ok env w page perPage status hok
  refine ⟨_, hresp, ?_, ?_, ?_⟩
  · simp only
    split_ifs with h
    · simp
    · exact h
  · intro h
    simp [h]
  · intro rows h
    simp [h]

theorem list_data_is_never_nil_witness :
    (TaskService.List (calmEnv 0 0) emptyWorld 1 20 "pending").1
      = (some { Data := some [], Total := 0, Page := 1, PerPage := 20 }, none) ∧
    (TaskService.List (calmEnv 0 0) coldWorld 9223372036854775807 20 "").1
      = (some { Data := some [], Total := 1, Page := 9223372036854775807, PerPage := 20 },
          none) ∧
    ∃ resp, (TaskService.List (calmEnv 0 0) emptyWorld 1 20 "pending").1 = (some resp, none) ∧
      resp.Data ≠ none ∧
      ((PostgresRepository.List (calmEnv 0 0) emptyWorld 1 20 "pending").1.1 = none →
        resp.Data = some []) ∧
      (∀ rows, (PostgresRepository.List (calmEnv 0 0) emptyWorld 1 20 "pending").1.1
          = some rows → resp.Data = some rows) :=
  ⟨by decide, by decide,
    list_data_is_never_nil (calmEnv 0 0) emptyWorld 1 20 "pending" (by decide)⟩

/-! ### The audit log -/

theorem sortByTimestampDesc_sorted (logs : List ActivityLog) :
    (sortByTimestampDesc logs).Pairwise (fun a b => b.Timestamp ≤ a.Timestamp) := by
  haveI : IsTotal ActivityLog (fun a b => b.Timestamp ≤ a.Timestamp) :=
    ⟨fun a b => le_total b.Timestamp a.Timestamp⟩
  haveI : IsTrans ActivityLog (fun a b => b.Timestamp ≤ a.Timestamp) :=
    ⟨fun _ _ _ hab hbc => le_trans hbc hab⟩
  exact List.sorted_insertionSort (fun a b => b.Timestamp ≤ a.Timestamp) logs

theorem mem_sortByTimestampDesc (logs : List ActivityLog) (l : ActivityLog) :
    l ∈ sortByTimestampDesc logs ↔ l ∈ logs :=
  (List.perm_insertionSort (fun a b => b.Timestamp ≤ a.Timestamp) logs).mem_iff

/-- A GetActivities that returns no error returns the first entries of the
sorted, filtered log, as the nil slice when there is none. -/
theorem GetActivities_ok (env : Env) (w : World β) (taskID : String) (limit : Int)
    (hok : (MongoRepository.GetActivities env w taskID limit).1.2 = none) :
    (MongoRepository.GetActivities env w taskID limit).1
      = (if ((sortByTimestampDesc (w.logs.filter (fun l => l.TaskID == taskID))).take
            (if limit ≤ 0 then 50 else limit).toNat).isEmpty then none
         else some ((sortByTimestampDesc (w.logs.filter (fun l => l.TaskID == taskID))).take
            (if limit ≤ 0 then 50 else limit).toNat), none) := by
  unfold MongoRepository.GetActivities mongoFindByTask cursorAll at hok ⊢
  cases hf : env.mongoFind with
  | some m => simp [hf] at hok
  | none =>
    cases hd : env.mongoDecode with
    | some m => simp [hf, hd] at hok
    | none => rfl

theorem getD_of_isEmpty_ite (docs : List ActivityLog) :
    (if docs.isEmpty then (none : Option (List ActivityLog)) else some docs).getD [] = docs := by
  cases docs <;> rfl

/-- C13: the entries a GetActivities that returns no error returns (none for the
nil slice) are entries of the log whose task id is the given id, ordered by
timestamp descending, at most `limit` of them when limit > 0 and at most 50
otherwise: the first entries of the sorted, filtered log; and
TaskService.GetActivities is MongoRepository.GetActivities. -/
theorem getActivities_filtered_sorted_capped (env : Env) (w : World β) (taskID : String)
    (limit : Int) (hok : (MongoRepository.GetActivities env w taskID limit).1.2 = none) :
    ((∀ l ∈ (MongoRepository.GetActivities env w taskID limit).1.1.getD [],
        l.TaskID = taskID ∧ l ∈ w.logs) ∧
      ((MongoRepository.GetActivities env w taskID limit).1.1.getD []).Pairwise
        (fun a b => b.Timestamp ≤ a.Timestamp) ∧
      (((MongoRepository.GetActivities env w taskID limit).1.1.getD []).length : Int)
        ≤ (if limit > 0 then limit else 50) ∧
      (MongoRepository.GetActivities env w taskID limit).1.1.getD []
        = (sortByTimestampDesc (w.logs.filter (fun l => l.TaskID == taskID))).take
          (if limit > 0 then limit else 50).toNat) ∧
    ∀ (env2 : Env) (w2 : World β) (id2 : String) (limit2 : Int),
      TaskService.GetActivities env2 w2 id2 limit2
        = MongoRepository.GetActivities env2 w2 id2 limit2 := by
  have hlim : (if limit ≤ 0 then (50 : Int) else limit) = (if limit > 0 then limit else 50) := by
    split_ifs <;> omega
  have hg := GetActivities_ok env w taskID limit hok
  rw [hlim] at hg
  have hd : (MongoRepository.GetActivities env w taskID limit).1.1.getD []
      = (sortByTimestampDesc (w.logs.filter (fun l => l.TaskID == taskID))).take
        (if limit > 0 then limit else 50).toNat := by
    rw [hg]
    exact getD_of_isEmpty_ite _
  refine ⟨⟨?_, ?_, ?_, hd⟩, fun _ _ _ _ => rfl⟩
  · intro l hl
    rw [hd] at hl
    have hmem := List.mem_of_mem_take hl
    rw [mem_sortByTimestampDesc] at hmem
    have := List.mem_filter.mp hmem
    exact ⟨by simpa using this.2, this.1⟩
  · rw [hd]
    exact (sortByTimestampDesc_sorted _).sublist (List.take_sublist _ _)
  · rw [hd]
    have hlen := List.length_take_le (if limit > 0 then limit else (50 : Int)).toNat
      (sortByTimestampDesc (w.logs.filter (fun l => l.TaskID == taskID)))
    have hpos : (0 : Int) ≤ (if limit > 0 then limit else (50 : Int)) := by
      split_ifs <;> omega
    omega

theorem getActivities_filtered_sorted_capped_witness :
    (MongoRepository.GetActivities (calmEnv 0 0) auditedWorld "t-1" 2).1
      = (some [⟨"2", "t-1", "deleted", "", 30000⟩, ⟨"3", "t-1", "updated", "", 20000⟩],
          none) ∧
    (MongoRepository.GetActivities (calmEnv 0 0) auditedWorld "t-9" 2).1 = (none, none) ∧
    (∀ l ∈ (MongoRepository.GetActivities (calmEnv 0 0) auditedWorld "t-1" 2).1.1.getD [],
        l.TaskID = "t-1" ∧ l ∈ auditedWorld.logs) ∧
    ((MongoRepository.GetActivities (calmEnv 0 0) auditedWorld "t-1" 2).1.1.getD []).Pairwise
      (fun a b => b.Timestamp ≤ a.Timestamp) ∧
    (((MongoRepository.GetActivities (calmEnv 0 0) auditedWorld "t-1" 2).1.1.getD []).length
      : Int) ≤ (if (2 : Int) > 0 then (2 : Int) else 50) ∧
    (MongoRepository.GetActivities (calmEnv 0 0) auditedWorld "t-1" 2).1.1.getD []
      = (sortByTimestampDesc (auditedWorld.logs.filter (fun l => l.TaskID == "t-1"))).take
        (if (2 : Int) > 0 then (2 : Int) else 50).toNat :=
  ⟨by decide, by decide,
    (getActivities_filtered_sorted_capped (calmEnv 0 0) auditedWorld "t-1" 2 (by decide)).1⟩

/-! ### What the calls leave untouched -/

theorem sameSideState_trans (w1 w2 w3 : World β) (h12 : SameSideState w1 w2)
    (h23 : SameSideState w2 w3) : SameSideState w1 w3 :=
  ⟨h23.1.trans h12.1, h23.2.1.trans h12.2.1, h23.2.2.trans h12.2.2⟩

theorem pgCreate_frame (env : Env) (w : World β) (req : TaskCreateRequest) :
    SameSideState w (PostgresRepository.Create env w req).2 ∧
    (PostgresRepository.Create env w req).2.trace
      = w.trace ++ [.pgInsert (uuidString env.rand)] := by
  unfold PostgresRepository.Create pgInsertReturning
  cases env.pgInsert with
  | some m => simp only; split_ifs <;> exact ⟨⟨rfl, rfl, rfl⟩, rfl⟩
  | none => simp only; split_ifs <;> exact ⟨⟨rfl, rfl, rfl⟩, rfl⟩

theorem pgGetByID_frame (env : Env) (w : World β) (id : String) :
    SameSideState w (PostgresRepository.GetByID env w id).2 := by
  rw [pgGetByID_world]
  exact ⟨rfl, rfl, rfl⟩

theorem pgUpdateReturning_frame (fault : Option String) (w : World β) (id : String)
    (a b c d : String) (t : Time) :
    SameSideState w (pgUpdateReturning fault w id a b c d t).2 ∧
    (pgUpdateReturning fault w id a b c d t).2.trace = w.trace ++ [.pgUpdate id] := by
  unfold pgUpdateReturning
  cases fault with
  | some m => exact ⟨⟨rfl, rfl, rfl⟩, rfl⟩
  | none =>
    simp only
    generalize List.find? _ (List.map _ _) = found
    cases found <;> exact ⟨⟨rfl, rfl, rfl⟩, rfl⟩

theorem pgUpdate_frame (env : Env) (w : World β) (id : String) (req : TaskUpdateRequest) :
    SameSideState w (PostgresRepository.Update env w id req).2 ∧
    ((PostgresRepository.Update env w id req).2.trace = w.trace ++ [.pgSelect id] ∨
      (PostgresRepository.Update env w id req).2.trace
        = w.trace ++ [.pgSelect id, .pgUpdate id]) := by
  have ha := pgGetByID_world env w id
  unfold PostgresRepository.Update
  rcases h1 : PostgresRepository.GetByID env w id with ⟨⟨r1, e1⟩, wa⟩
  rw [h1] at ha
  simp only at ha
  subst ha
  cases e1 with
  | some e => cases r1 <;> exact ⟨⟨rfl, rfl, rfl⟩, Or.inl rfl⟩
  | none =>
    cases r1 with
    | none => exact ⟨⟨rfl, rfl, rfl⟩, Or.inl rfl⟩
    | some existing =>
      simp only
      generalize hq : pgUpdateReturning _ _ _ _ _ _ _ _ = res
      have hf := pgUpdateReturning_frame env.pgUpdate (w.record (.pgSelect id)) id
      have hw := congrArg Prod.snd hq
      rcases res with ⟨_ | _, w2⟩ <;>
      · simp only at hw ⊢
        subst hw
        refine ⟨?_, Or.inr ?_⟩
        · exact sameSideState_trans w (w.record (.pgSelect id)) _ ⟨rfl, rfl, rfl⟩
            (hf _ _ _ _ _).1
        · rw [(hf _ _ _ _ _).2]
          simp [World.record]

theorem pgDelete_frame (env : Env) (w : World β) (id : String) :
    SameSideState w (PostgresRepository.Delete env w id).2 ∧
    (PostgresRepository.Delete env w id).2.trace = w.trace ++ [.pgDelete id] := by
  unfold PostgresRepository.Delete pgExecDelete
  cases env.pgDelete with
  | some m => exact ⟨⟨rfl, rfl, rfl⟩, rfl⟩
  | none => simp only; split_ifs <;> exact ⟨⟨rfl, rfl, rfl⟩, rfl⟩

theorem SetTask_audit (js : Codec β) (env : Env) (w : World β) (t : Task) :
    SameAudit w (RedisCache.SetTask js env w t).2 := by
  unfold RedisCache.SetTask redisSet
  cases js.marshal t <;> cases env.redisSet <;> exact ⟨rfl, rfl⟩

theorem InvalidateTask_audit (env : Env) (w : World β) (id : String) :
    SameAudit w (RedisCache.InvalidateTask env w id).2 := by
  unfold RedisCache.InvalidateTask redisDel
  cases env.redisDel <;> exact ⟨rfl, rfl⟩

/-! ### The goroutines spawned by the coordinator -/

/-- A successful Create leaves the audit log as it was and spawns one goroutine. -/
theorem Create_audit (js : Codec β) (env : Env) (w : World β) (req : TaskCreateRequest)
    (task : Task) (h : (TaskService.Create js env w req).1 = (some task, none)) :
    (TaskService.Create js env w req).2.logs = w.logs ∧
    (TaskService.Create js env w req).2.pending
      = w.pending ++ [⟨task.ID, "created", "Task " ++ quote ++ task.Title ++ quote
          ++ " created with priority " ++ task.Priority⟩] := by
  have hf := (pgCreate_frame env w req).1
  unfold TaskService.Create at h ⊢
  generalize PostgresRepository.Create env w req = res at h hf ⊢
  rcases res with ⟨⟨_ | t, _ | e⟩, w1⟩
  · simp at h
  · simp at h
  swap
  · simp at h
  simp only [Prod.mk.injEq, Option.some.injEq, and_true] at h ⊢
  subst h
  have hs := SetTask_audit js env w1 t
  generalize RedisCache.SetTask js env w1 t = sres at hs ⊢
  rcases sres with ⟨e2, w2⟩
  obtain ⟨-, hl, hp⟩ := hf
  obtain ⟨hl2, hp2⟩ := hs
  simp only at hl hp hl2 hp2 ⊢
  cases e2 <;> simp [World.spawn, World.warn, World.record, hl, hp, hl2, hp2]

/-- A successful Update leaves the audit log as it was and spawns one goroutine. -/
theorem Update_audit (js : Codec β) (env : Env) (w : World β) (id : String)
    (req : TaskUpdateRequest) (task : Task)
    (h : (TaskService.Update js env w id req).1 = (some task, none)) :
    (TaskService.Update js env w id req).2.logs = w.logs ∧
    (TaskService.Update js env w id req).2.pending
      = w.pending ++ [⟨id, "updated", "Task " ++ quote ++ task.Title ++ quote ++ " updated"⟩] := by
  have hf := (pgUpdate_frame env w id req).1
  unfold TaskService.Update at h ⊢
  generalize PostgresRepository.Update env w id req = res at h hf ⊢
  rcases res with ⟨⟨_ | t, _ | e⟩, w1⟩
  · simp at h
  · simp at h
  swap
  · simp at h
  simp only [Prod.mk.injEq, Option.some.injEq, and_true] at h ⊢
  subst h
  have hi := InvalidateTask_audit env w1 id
  generalize RedisCache.InvalidateTask env w1 id = ires at hi ⊢
  rcases ires with ⟨e1, w2⟩
  have hs := SetTask_audit js env (if e1.isSome = true then w2.warn "failed to invalidate cache"
    else w2) t
  generalize RedisCache.SetTask js env _ t = sres at hs ⊢
  rcases sres with ⟨e2, w4⟩
  obtain ⟨-, hl, hp⟩ := hf
  obtain ⟨hl1, hp1⟩ := hi
  obtain ⟨hl2, hp2⟩ := hs
  simp only at hl hp hl1 hp1 hl2 hp2 ⊢
  cases e1 <;> cases e2 <;>
    simp_all [World.spawn, World.warn, World.record]

/-- A successful Delete leaves the audit log as it was and spawns one goroutine. -/
theorem Delete_audit (env : Env) (w : World β) (id : String)
    (h : (TaskService.Delete env w id).1 = none) :
    (TaskService.Delete env w id).2.logs = w.logs ∧
    ∃ details, (TaskService.Delete env w id).2.pending = w.pending ++ [⟨id, "deleted", details⟩] := by
  have hg := pgGetByID_frame env w id
  unfold TaskService.Delete at h ⊢
  generalize PostgresRepository.GetByID env w id = gres at h hg ⊢
  rcases gres with ⟨⟨t, e⟩, w1⟩
  simp only at h hg ⊢
  have hd := (pgDelete_frame env w1 id).1
  generalize PostgresRepository.Delete env w1 id = dres at h hd ⊢
  rcases dres with ⟨_ | err, w2⟩
  · simp only
    have hi := InvalidateTask_audit env w2 id
    generalize RedisCache.InvalidateTask env w2 id = ires at hi ⊢
    rcases ires with ⟨e1, w3⟩
    obtain ⟨-, hl, hp⟩ := hg
    obtain ⟨-, hl1, hp1⟩ := hd
    obtain ⟨hl2, hp2⟩ := hi
    simp only at hl hp hl1 hp1 hl2 hp2 ⊢
    cases e1 <;> simp_all [World.spawn, World.warn, World.record]
  · simp at h

/-- The only pending goroutine runs and the audit store accepts its write: one
entry is appended, stamped with the clock read by the goroutine. -/
theorem runAuditJob_single (env : Env) (w : World β) (job : AuditJob)
    (hp : w.pending = [job]) (hins : env.mongoInsert = none) :
    (runAuditJob env w 0).pending = [] ∧
    (runAuditJob env w 0).logs
      = w.logs ++ [⟨toString w.logs.length, job.taskID, job.action, job.details,
          bsonDateTime (env.now 0)⟩] := by
  unfold runAuditJob MongoRepository.LogActivity mongoInsertOne
  simp [hp, hins, World.record]

/-- GetActivities when the audit store answers. -/
theorem GetActivities_up (env : Env) (w : World β) (taskID : String) (limit : Int)
    (hf : env.mongoFind = none) (hd : env.mongoDecode = none) :
    (MongoRepository.GetActivities env w taskID limit).1
      = (if ((sortByTimestampDesc (w.logs.filter (fun l => l.TaskID == taskID))).take
            (if limit ≤ 0 then 50 else limit).toNat).isEmpty then none
         else some ((sortByTimestampDesc (w.logs.filter (fun l => l.TaskID == taskID))).take
            (if limit ≤ 0 then 50 else limit).toNat), none) := by
  unfold MongoRepository.GetActivities mongoFindByTask cursorAll
  simp only [hf, hd]
  rfl

theorem sortByTimestampDesc_three (e1 e2 e3 : ActivityLog)
    (h12 : e1.Timestamp < e2.Timestamp) (h23 : e2.Timestamp < e3.Timestamp) :
    sortByTimestampDesc [e1, e2, e3] = [e3, e2, e1] := by
  have h1 : ¬ e3.Timestamp ≤ e2.Timestamp := Nat.not_le.mpr h23
  have h2 : ¬ e3.Timestamp ≤ e1.Timestamp := Nat.not_le.mpr (Nat.lt_trans h12 h23)
  have h3 : ¬ e2.Timestamp ≤ e1.Timestamp := Nat.not_le.mpr h12
  simp [sortByTimestampDesc, List.insertionSort, List.orderedInsert, h1, h2, h3]

/-- C14 as stated fails at three schedules of the detached goroutines.  A task is
created, updated and deleted, every call succeeding.  First, GetActivities is
called before any of the three goroutines has run: it returns no entry (the nil
slice).  Second, the goroutine of Update runs at 400 ms, the goroutine of Create at
500 ms and the goroutine of Delete at 600 ms, the audit store accepting every
write: GetActivities returns the actions "deleted", "created", "updated".  Third,
each goroutine runs before the next call and reads a later clock than the one
before, all three within one millisecond: the three entries are stored with the
same timestamp and GetActivities returns "created", "updated", "deleted". -/
theorem activities_depend_on_goroutine_schedule :
    (TaskService.Create plainCodec (calmEnv 7 100) emptyWorld ⟨"Write spec", "", "high"⟩).1.2
      = none ∧
    (TaskService.Update plainCodec (calmEnv 0 200)
      (TaskService.Create plainCodec (calmEnv 7 100) emptyWorld ⟨"Write spec", "", "high"⟩).2
      (uuidString 7) ⟨none, none, some "in_progress", none⟩).1.2 = none ∧
    (TaskService.Delete (calmEnv 0 300)
      (TaskService.Update plainCodec (calmEnv 0 200)
        (TaskService.Create plainCodec (calmEnv 7 100) emptyWorld ⟨"Write spec", "", "high"⟩).2
        (uuidString 7) ⟨none, none, some "in_progress", none⟩).2 (uuidString 7)).1 = none ∧
    (TaskService.GetActivities (calmEnv 0 400)
      (TaskService.Delete (calmEnv 0 300)
        (TaskService.Update plainCodec (calmEnv 0 200)
          (TaskService.Create plainCodec (calmEnv 7 100) emptyWorld ⟨"Write spec", "", "high"⟩).2
          (uuidString 7) ⟨none, none, some "in_progress", none⟩).2 (uuidString 7)).2
      (uuidString 7) 50).1 = (none, none) ∧
    ((TaskService.GetActivities (calmEnv 0 700000)
      (runAuditJob (calmEnv 0 600000) (runAuditJob (calmEnv 0 500000)
        (runAuditJob (calmEnv 0 400000)
          (TaskService.Delete (calmEnv 0 300)
            (TaskService.Update plainCodec (calmEnv 0 200)
              (TaskService.Create plainCodec (calmEnv 7 100) emptyWorld
                ⟨"Write spec", "", "high"⟩).2
              (uuidString 7) ⟨none, none, some "in_progress", none⟩).2 (uuidString 7)).2
          1) 0) 0)
      (uuidString 7) 50).1.1.getD []).map (fun l => (l.Action, l.Timestamp))
      = [("deleted", 600000), ("created", 500000), ("updated", 400000)] ∧
    ((TaskService.GetActivities (calmEnv 0 5000)
      (deletedWorld (calmEnv 0 1250) (calmEnv 0 1300)
        (updatedWorld plainCodec (calmEnv 0 1150) (calmEnv 0 1200)
          (createdWorld plainCodec (calmEnv 7 100) (calmEnv 0 1100) emptyWorld
            ⟨"Write spec", "", "high"⟩)
          (uuidString 7) ⟨none, none, some "in_progress", none⟩) (uuidString 7))
      (uuidString 7) 50).1.1.getD []).map (fun l => (l.Action, l.Timestamp))
      = [("created", 1000), ("updated", 1000), ("deleted", 1000)] :=
  ⟨by decide, by decide, by decide, by decide, by decide, by decide⟩

/-- GetActivities on a log that ends with three entries for the id, written at
increasing instants, and holds no other entry for it. -/
theorem GetActivities_three (env : Env) (w : World β) (id : String) (limit : Int)
    (logs0 : List ActivityLog) (e1 e2 e3 : ActivityLog)
    (hlogs : w.logs = logs0 ++ [e1] ++ [e2] ++ [e3])
    (hfresh : ∀ l ∈ logs0, l.TaskID ≠ id)
    (h1 : e1.TaskID = id) (h2 : e2.TaskID = id) (h3 : e3.TaskID = id)
    (h12 : e1.Timestamp < e2.Timestamp) (h23 : e2.Timestamp < e3.Timestamp)
    (hf : env.mongoFind = none) (hd : env.mongoDecode = none)
    (hlimit : limit ≤ 0 ∨ 3 ≤ limit) :
    (MongoRepository.GetActivities env w id limit).1 = (some [e3, e2, e1], none) := by
  have hfilter : logs0.filter (fun l => l.TaskID == id) = [] := by
    rw [List.filter_eq_nil_iff]
    intro l hl
    simpa using hfresh l hl
  have hn : 3 ≤ (if limit ≤ 0 then (50 : Int) else limit).toNat := by
    split_ifs with h
    · decide
    · omega
  rw [GetActivities_up env w id limit hf hd, hlogs]
  have hall : (logs0 ++ [e1] ++ [e2] ++ [e3]).filter (fun l => l.TaskID == id)
      = [e1, e2, e3] := by
    simp [List.filter_append, hfilter, List.filter_cons, h1, h2, h3]
  rw [hall, sortByTimestampDesc_three _ _ _ h12 h23]
  rw [List.take_of_length_le (by simpa using hn)]
  rfl

/-- C14 (amended): a task is created, updated and deleted through TaskService,
every call succeeding; the goroutine spawned by each call runs before the next
call is made and before GetActivities, the audit store accepts every write, the
clock read by each goroutine falls in a later millisecond (the resolution of the
stored timestamp) than the one read by the goroutine before, no goroutine was
pending and no entry for the task's id existed at the start.  Then GetActivities
on the id, with a limit that is not positive or is at least 3, returns exactly
three entries, with the actions "deleted", "updated", "created" in that order. -/
theorem activities_after_sequential_lifecycle (js : Codec β)
    (envC envA1 envU envA2 envD envA3 envG : Env) (w : World β) (req : TaskCreateRequest)
    (upd : TaskUpdateRequest) (task updated : Task) (limit : Int)
    (hpending : w.pending = [])
    (hfresh : ∀ l ∈ w.logs, l.TaskID ≠ task.ID)
    (hC : (TaskService.Create js envC w req).1 = (some task, none))
    (hU : (TaskService.Update js envU (createdWorld js envC envA1 w req) task.ID upd).1
      = (some updated, none))
    (hD : (TaskService.Delete envD
      (updatedWorld js envU envA2 (createdWorld js envC envA1 w req) task.ID upd) task.ID).1
      = none)
    (hins : envA1.mongoInsert = none ∧ envA2.mongoInsert = none ∧ envA3.mongoInsert = none)
    (hclock : bsonDateTime (envA1.now 0) < bsonDateTime (envA2.now 0) ∧
      bsonDateTime (envA2.now 0) < bsonDateTime (envA3.now 0))
    (hfind : envG.mongoFind = none ∧ envG.mongoDecode = none)
    (hlimit : limit ≤ 0 ∨ 3 ≤ limit) :
    ∃ e1 e2 e3 : ActivityLog,
      (TaskService.GetActivities envG
        (deletedWorld envD envA3
          (updatedWorld js envU envA2 (createdWorld js envC envA1 w req) task.ID upd) task.ID)
        task.ID limit).1 = (some [e3, e2, e1], none) ∧
      e3.Action = "deleted" ∧ e2.Action = "updated" ∧ e1.Action = "created" ∧
      e1.TaskID = task.ID ∧ e2.TaskID = task.ID ∧ e3.TaskID = task.ID ∧
      e1.Timestamp = bsonDateTime (envA1.now 0) ∧
      e2.Timestamp = bsonDateTime (envA2.now 0) ∧
      e3.Timestamp = bsonDateTime (envA3.now 0) := by
  obtain ⟨hl1, hp1⟩ := Create_audit js envC w req task hC
  rw [hpending, List.nil_append] at hp1
  obtain ⟨hq1, hlogs1⟩ := runAuditJob_single envA1 _ _ hp1 hins.1
  rw [hl1] at hlogs1
  obtain ⟨hl2, hp2⟩ := Update_audit js envU (createdWorld js envC envA1 w req) task.ID upd
    updated hU
  rw [show (createdWorld js envC envA1 w req).pending = [] from hq1, List.nil_append] at hp2
  obtain ⟨hq2, hlogs2⟩ := runAuditJob_single envA2 _ _ hp2 hins.2.1
  rw [hl2, show (createdWorld js envC envA1 w req).logs = _ from hlogs1] at hlogs2
  obtain ⟨hl3, details, hp3⟩ := Delete_audit envD
    (updatedWorld js envU envA2 (createdWorld js envC envA1 w req) task.ID upd) task.ID hD
  rw [show (updatedWorld js envU envA2 (createdWorld js envC envA1 w req) task.ID upd).pending
    = [] from hq2, List.nil_append] at hp3
  obtain ⟨-, hlogs3⟩ := runAuditJob_single envA3 _ _ hp3 hins.2.2
  rw [hl3, show (updatedWorld js envU envA2 (createdWorld js envC envA1 w req) task.ID upd).logs
    = _ from hlogs2] at hlogs3
  exact ⟨_, _, _,
    GetActivities_three envG _ task.ID limit w.logs _ _ _ hlogs3 hfresh rfl rfl rfl
      hclock.1 hclock.2 hfind.1 hfind.2 hlimit,
    rfl, rfl, rfl, rfl, rfl, rfl, rfl, rfl, rfl⟩

theorem activities_after_sequential_lifecycle_witness :
    (TaskService.Create plainCodec (calmEnv 7 100) emptyWorld ⟨"Write spec", "", "high"⟩).1
      = (some ⟨uuidString 7, "Write spec", "", "pending", "high", 100, 101⟩, none) ∧
    ∃ e1 e2 e3 : ActivityLog,
      (TaskService.GetActivities (calmEnv 0 400000)
        (deletedWorld (calmEnv 0 300000) (calmEnv 0 350000)
          (updatedWorld plainCodec (calmEnv 0 200000) (calmEnv 0 250000)
            (createdWorld plainCodec (calmEnv 7 100) (calmEnv 0 150000) emptyWorld
              ⟨"Write spec", "", "high"⟩)
            (⟨uuidString 7, "Write spec", "", "pending", "high", 100, 101⟩ : Task).ID
            ⟨none, none, some "in_progress", none⟩)
          (⟨uuidString 7, "Write spec", "", "pending", "high", 100, 101⟩ : Task).ID)
        (⟨uuidString 7, "Write spec", "", "pending", "high", 100, 101⟩ : Task).ID 0).1
        = (some [e3, e2, e1], none) ∧
      e3.Action = "deleted" ∧ e2.Action = "updated" ∧ e1.Action = "created" ∧
      e1.TaskID = (⟨uuidString 7, "Write spec", "", "pending", "high", 100, 101⟩ : Task).ID ∧
      e2.TaskID = (⟨uuidString 7, "Write spec", "", "pending", "high", 100, 101⟩ : Task).ID ∧
      e3.TaskID = (⟨uuidString 7, "Write spec", "", "pending", "high", 100, 101⟩ : Task).ID ∧
      e1.Timestamp = bsonDateTime ((calmEnv 0 150000).now 0) ∧
      e2.Timestamp = bsonDateTime ((calmEnv 0 250000).now 0) ∧
      e3.Timestamp = bsonDateTime ((calmEnv 0 350000).now 0) :=
  ⟨by decide,
    activities_after_sequential_lifecycle plainCodec (calmEnv 7 100) (calmEnv 0 150000)
      (calmEnv 0 200000) (calmEnv 0 250000) (calmEnv 0 300000) (calmEnv 0 350000)
      (calmEnv 0 400000) emptyWorld
      ⟨"Write spec", "", "high"⟩ ⟨none, none, some "in_progress", none⟩
      ⟨uuidString 7, "Write spec", "", "pending", "high", 100, 101⟩
      ⟨uuidString 7, "Write spec", "", "in_progress", "high", 100, 200000⟩ 0
      rfl (fun l hl => by cases hl) (by decide) (by decide) (by decide)
      ⟨rfl, rfl, rfl⟩ ⟨by decide, by decide⟩ ⟨rfl, rfl⟩ (Or.inl (by decide))⟩

/-! ### What the client observes -/

theorem GetByID_store_fault (js : Codec β) (env : Env) (w : World β) (id m : String)
    (hmiss : (RedisCache.GetTask js env w id).1.1 = none) (hsel : env.pgSelect = some m) :
    (TaskService.GetByID js env w id).1
      = (none, some (.wrap "service: get task" (.wrap "task not found" (.driver m)))) := by
  have h2 := GetTask_world js env w id
  unfold TaskService.GetByID
  rcases hg : RedisCache.GetTask js env w id with ⟨⟨c, err⟩, w1⟩
  rw [hg] at hmiss h2
  simp only at hmiss h2
  subst hmiss h2
  simp only [PostgresRepository.GetByID, pgSelectByID, hsel]

/-- The get handler answers 404 exactly when the service returns an error. -/
theorem GetTask_notFound_iff (js : Codec β) (env : Env) (w : World β) (id : String) :
    (TaskHandler.GetTask js env w id).1 = notFound ↔
      ∃ e, (TaskService.GetByID js env w id).1.2 = some e := by
  unfold TaskHandler.GetTask
  generalize TaskService.GetByID js env w id = res
  rcases res with ⟨⟨r, err⟩, w1⟩
  cases err with
  | some e => exact ⟨fun _ => ⟨e, rfl⟩, fun _ => by cases r <;> rfl⟩
  | none =>
    cases r with
    | none => simp [notFound, recovered]
    | some t => simp [notFound]

theorem GetTask_of_task (js : Codec β) (env : Env) (w : World β) (id : String) (t : Task)
    (h : (TaskService.GetByID js env w id).1 = (some t, none)) :
    (TaskHandler.GetTask js env w id).1 = ⟨200, .task t⟩ := by
  unfold TaskHandler.GetTask
  generalize TaskService.GetByID js env w id = res at h ⊢
  rcases res with ⟨⟨r, err⟩, w1⟩
  simp only [Prod.mk.injEq] at h
  obtain ⟨rfl, rfl⟩ := h
  rfl

/-- C15 as stated fails: the task "t-1" is stored, nothing is cached and every
PostgreSQL statement fails with a connectivity error; the get handler answers
404 "not_found", not an internal failure, and so do the update and delete
handlers. -/
theorem store_failure_answered_with_404 :
    coldWorld.tasks.find? (fun r => r.ID == "t-1") = some sampleTask ∧
    (TaskHandler.GetTask plainCodec (storeDownEnv 0 0) coldWorld "t-1").1
      = ⟨404, .error ⟨"not_found", "Task not found", 404⟩⟩ ∧
    (TaskHandler.UpdateTask plainCodec (storeDownEnv 0 0) coldWorld "t-1"
        (.ok ⟨none, none, some "completed", none⟩)).1
      = ⟨404, .error ⟨"not_found", "Task not found", 404⟩⟩ ∧
    (TaskHandler.DeleteTask (storeDownEnv 0 0) coldWorld "t-1").1
      = ⟨404, .error ⟨"not_found", "Task not found", 404⟩⟩ :=
  ⟨by decide, by decide, by decide, by decide⟩

/-- C15 (amended): the get handler answers 404 "not_found" exactly when
TaskService.GetByID returns an error, and 200 with the task when GetByID returns
one; on a cache miss GetByID returns an error both when the SELECT on the primary
store fails, whether or not a task matches the id, and when the SELECT works and
no task matches the id, so both cases are answered with the same 404. -/
theorem get_handler_not_found_for_every_error (js : Codec β) (env : Env) (w : World β)
    (id : String) :
    ((TaskHandler.GetTask js env w id).1 = notFound ↔
      ∃ e, (TaskService.GetByID js env w id).1.2 = some e) ∧
    (∀ t, (TaskService.GetByID js env w id).1 = (some t, none) →
      (TaskHandler.GetTask js env w id).1 = ⟨200, .task t⟩) ∧
    ((RedisCache.GetTask js env w id).1.1 = none →
      (∀ m, env.pgSelect = some m →
        (TaskService.GetByID js env w id).1
          = (none, some (.wrap "service: get task" (.wrap "task not found" (.driver m)))) ∧
        (TaskHandler.GetTask js env w id).1 = notFound) ∧
      (env.pgSelect = none → w.tasks.find? (fun r => r.ID == id) = none →
        (∃ cause, (TaskService.GetByID js env w id).1
          = (none, some (.wrap "service: get task" (.wrap "task not found" cause)))) ∧
        (TaskHandler.GetTask js env w id).1 = notFound)) := by
  refine ⟨GetTask_notFound_iff js env w id, fun t h => GetTask_of_task js env w id t h, ?_⟩
  intro hmiss
  constructor
  · intro m hsel
    have h := GetByID_store_fault js env w id m hmiss hsel
    exact ⟨h, (GetTask_notFound_iff js env w id).mpr ⟨_, by rw [h]⟩⟩
  · intro _ hrow
    obtain ⟨cause, hc⟩ := GetByID_absent js env w id hmiss hrow
    exact ⟨⟨cause, hc⟩, (GetTask_notFound_iff js env w id).mpr ⟨_, by rw [hc]⟩⟩

theorem get_handler_not_found_for_every_error_witness :
    coldWorld.tasks.find? (fun r => r.ID == "t-1") = some sampleTask ∧
    (TaskService.GetByID plainCodec (storeDownEnv 0 0) coldWorld "t-1").1
      = (none, some (.wrap "service: get task"
          (.wrap "task not found" (.driver "connection refused")))) ∧
    (TaskHandler.GetTask plainCodec (storeDownEnv 0 0) coldWorld "t-1").1 = notFound :=
  ⟨by decide,
    ((get_handler_not_found_for_every_error plainCodec (storeDownEnv 0 0) coldWorld
      "t-1").2.2 (by decide)).1 "connection refused" rfl⟩

/-! ### The outcomes of the cache lookup -/

/-- C16: GetTask returns (nil, nil) exactly when the lookup reaches Redis and no
entry exists under "task:" + id; (nil, error) exactly when the lookup fails or
the stored bytes do not decode; (task, nil) exactly when the lookup reaches
Redis and the stored bytes decode to the task; and never a task together with an
error. -/
theorem getTask_three_outcomes (js : Codec β) (env : Env) (w : World β) (id : String) :
    ((RedisCache.GetTask js env w id).1 = (none, none) ↔
      env.redisGet = none ∧
        w.cache.find? (fun e => e.key == taskCachePrefix ++ id) = none) ∧
    ((∃ err, (RedisCache.GetTask js env w id).1 = (none, some err)) ↔
      (∃ m, env.redisGet = some m) ∨
      (env.redisGet = none ∧ ∃ entry err,
        w.cache.find? (fun e => e.key == taskCachePrefix ++ id) = some entry ∧
        js.unmarshal entry.data = .error err)) ∧
    (∀ t, (RedisCache.GetTask js env w id).1 = (some t, none) ↔
      env.redisGet = none ∧ ∃ entry,
        w.cache.find? (fun e => e.key == taskCachePrefix ++ id) = some entry ∧
        js.unmarshal entry.data = .ok t) ∧
    (∀ t err, (RedisCache.GetTask js env w id).1 ≠ (some t, some err)) := by
  unfold RedisCache.GetTask redisGet
  cases hg : env.redisGet with
  | some m => simp
  | none =>
    simp only [record_cache]
    cases hf : w.cache.find? (fun e => e.key == taskCachePrefix ++ id) with
    | none => simp
    | some entry =>
      simp only
      cases hu : js.unmarshal entry.data with
      | error err => simp [hu]
      | ok t =>
        simp
        rw [hu]
        simp

/-! ### Failure of the primary store -/

theorem Create_of_store_error (js : Codec β) (env : Env) (w : World β)
    (req : TaskCreateRequest) (h : (PostgresRepository.Create env w req).1.2 ≠ none) :
    (TaskService.Create js env w req).1.1 = none ∧
    (TaskService.Create js env w req).1.2 ≠ none ∧
    (TaskService.Create js env w req).2 = (PostgresRepository.Create env w req).2 := by
  unfold TaskService.Create
  generalize PostgresRepository.Create env w req = res at h ⊢
  rcases res with ⟨⟨r, _ | e⟩, w1⟩
  · simp at h
  · cases r <;> simp

theorem Update_of_store_error (js : Codec β) (env : Env) (w : World β) (id : String)
    (req : TaskUpdateRequest) (h : (PostgresRepository.Update env w id req).1.2 ≠ none) :
    (TaskService.Update js env w id req).1.1 = none ∧
    (TaskService.Update js env w id req).1.2 ≠ none ∧
    (TaskService.Update js env w id req).2 = (PostgresRepository.Update env w id req).2 := by
  unfold TaskService.Update
  generalize PostgresRepository.Update env w id req = res at h ⊢
  rcases res with ⟨⟨r, _ | e⟩, w1⟩
  · simp at h
  · cases r <;> simp

theorem Delete_of_store_error (env : Env) (w : World β) (id : String)
    (h : (PostgresRepository.Delete env (PostgresRepository.GetByID env w id).2 id).1 ≠ none) :
    (TaskService.Delete env w id).1 ≠ none ∧
    (TaskService.Delete env w id).2
      = (PostgresRepository.Delete env (PostgresRepository.GetByID env w id).2 id).2 := by
  unfold TaskService.Delete
  generalize PostgresRepository.GetByID env w id = gres at h ⊢
  rcases gres with ⟨⟨t, e⟩, w1⟩
  simp only at h ⊢
  generalize PostgresRepository.Delete env w1 id = dres at h ⊢
  rcases dres with ⟨_ | err, w2⟩
  · simp at h
  · simp

/-- C18: when the call of the primary store inside Create, Update or Delete
fails, the operation returns an error (and no task for Create and Update); the
cache, the audit log and the pending goroutines are what they were, and the
trace gains only the PostgreSQL statements: no cache set, no invalidation, no
goroutine spawned and no audit write. -/
theorem store_failure_has_no_side_effect (js : Codec β) (env : Env) (w : World β)
    (req : TaskCreateRequest) (id : String) (upd : TaskUpdateRequest) :
    ((PostgresRepository.Create env w req).1.2 ≠ none →
      (TaskService.Create js env w req).1.1 = none ∧
      (TaskService.Create js env w req).1.2 ≠ none ∧
      (TaskService.Create js env w req).2.cache = w.cache ∧
      (TaskService.Create js env w req).2.logs = w.logs ∧
      (TaskService.Create js env w req).2.pending = w.pending ∧
      (TaskService.Create js env w req).2.trace
        = w.trace ++ [.pgInsert (uuidString env.rand)]) ∧
    ((PostgresRepository.Update env w id upd).1.2 ≠ none →
      (TaskService.Update js env w id upd).1.1 = none ∧
      (TaskService.Update js env w id upd).1.2 ≠ none ∧
      (TaskService.Update js env w id upd).2.cache = w.cache ∧
      (TaskService.Update js env w id upd).2.logs = w.logs ∧
      (TaskService.Update js env w id upd).2.pending = w.pending ∧
      ((TaskService.Update js env w id upd).2.trace = w.trace ++ [.pgSelect id] ∨
        (TaskService.Update js env w id upd).2.trace
          = w.trace ++ [.pgSelect id, .pgUpdate id])) ∧
    ((PostgresRepository.Delete env (PostgresRepository.GetByID env w id).2 id).1 ≠ none →
      (TaskService.Delete env w id).1 ≠ none ∧
      (TaskService.Delete env w id).2.cache = w.cache ∧
      (TaskService.Delete env w id).2.logs = w.logs ∧
      (TaskService.Delete env w id).2.pending = w.pending ∧
      (TaskService.Delete env w id).2.trace = w.trace ++ [.pgSelect id, .pgDelete id]) := by
  refine ⟨?_, ?_, ?_⟩
  · intro h
    obtain ⟨h1, h2, h3⟩ := Create_of_store_error js env w req h
    obtain ⟨⟨hc, hl, hp⟩, ht⟩ := pgCreate_frame env w req
    rw [h3]
    exact ⟨h1, h2, hc, hl, hp, ht⟩
  · intro h
    obtain ⟨h1, h2, h3⟩ := Update_of_store_error js env w id upd h
    obtain ⟨⟨hc, hl, hp⟩, ht⟩ := pgUpdate_frame env w id upd
    rw [h3]
    exact ⟨h1, h2, hc, hl, hp, ht⟩
  · intro h
    obtain ⟨h1, h3⟩ := Delete_of_store_error env w id h
    obtain ⟨⟨hc, hl, hp⟩, ht⟩ := pgDelete_frame env (PostgresRepository.GetByID env w id).2 id
    rw [h3]
    refine ⟨h1, ?_, ?_, ?_, ?_⟩
    · rw [hc, pgGetByID_world]; rfl
    · rw [hl, pgGetByID_world]; rfl
    · rw [hp, pgGetByID_world]; rfl
    · rw [ht, pgGetByID_world]; simp [World.record]

theorem store_failure_has_no_side_effect_witness :
    (PostgresRepository.Update (storeDownEnv 0 0) sampleWorld "t-1"
      ⟨none, none, some "completed", none⟩).1.2 ≠ none ∧
    (TaskService.Update plainCodec (storeDownEnv 0 0) sampleWorld "t-1"
      ⟨none, none, some "completed", none⟩).1.1 = none ∧
    (TaskService.Update plainCodec (storeDownEnv 0 0) sampleWorld "t-1"
      ⟨none, none, some "completed", none⟩).1.2 ≠ none ∧
    (TaskService.Update plainCodec (storeDownEnv 0 0) sampleWorld "t-1"
      ⟨none, none, some "completed", none⟩).2.cache = sampleWorld.cache ∧
    (TaskService.Update plainCodec (storeDownEnv 0 0) sampleWorld "t-1"
      ⟨none, none, some "completed", none⟩).2.logs = sampleWorld.logs ∧
    (TaskService.Update plainCodec (storeDownEnv 0 0) sampleWorld "t-1"
      ⟨none, none, some "completed", none⟩).2.pending = sampleWorld.pending ∧
    ((TaskService.Update plainCodec (storeDownEnv 0 0) sampleWorld "t-1"
        ⟨none, none, some "completed", none⟩).2.trace
        = sampleWorld.trace ++ [.pgSelect "t-1"] ∨
      (TaskService.Update plainCodec (storeDownEnv 0 0) sampleWorld "t-1"
        ⟨none, none, some "completed", none⟩).2.trace
        = sampleWorld.trace ++ [.pgSelect "t-1", .pgUpdate "t-1"]) :=
  ⟨by decide,
    (store_failure_has_no_side_effect plainCodec (storeDownEnv 0 0) sampleWorld
      ⟨"Write spec", "", "high"⟩ "t-1" ⟨none, none, some "completed", none⟩).2.1 (by decide)⟩

/-! ### The configuration of the health checker -/

theorem loadConfig_ok (readFile : String → Except GoError String)
    (unmarshal : String → Except GoError HealthChecker.Config) (path data : String)
    (parsed : HealthChecker.Config)
    (hread : readFile path = .ok data) (hparse : unmarshal data = .ok parsed) :
    HealthChecker.loadConfig readFile unmarshal path
      = (some { Endpoints := parsed.Endpoints.map HealthChecker.specEndpoint
                Interval := if parsed.Interval > 0 then parsed.Interval else 30
                Webhook := parsed.Webhook }, none) := by
  unfold HealthChecker.loadConfig
  simp only [hread, hparse]
  have hmap : ∀ eps : List HealthChecker.Endpoint,
      eps.map (fun ep =>
          let ep := if ep.Method = "" then { ep with Method := "GET" } else ep
          let ep := if ep.Timeout ≤ 0 then { ep with Timeout := 5 } else ep
          let ep := if ep.Expect ≤ 0 then { ep with Expect := 200 } else ep
          ep)
        = eps.map HealthChecker.specEndpoint := by
    intro eps
    apply List.map_congr_left
    intro ep _
    rcases ep with ⟨n, u, m, t, e⟩
    simp only [HealthChecker.specEndpoint]
    by_cases h1 : m = "" <;> by_cases h2 : t ≤ 0 <;> by_cases h3 : e ≤ 0 <;>
      simp [h1, h2, h3, not_lt.mpr, lt_of_not_ge]
  by_cases hi : parsed.Interval ≤ 0
  · simp only [hi, if_true, not_lt.mpr hi, if_false]
    rw [hmap]
  · simp only [hi, if_false, lt_of_not_ge hi, if_true]
    rw [hmap]

theorem specEndpoint_idem (p : HealthChecker.Endpoint) :
    HealthChecker.specEndpoint (HealthChecker.specEndpoint p) = HealthChecker.specEndpoint p := by
  rcases p with ⟨n, u, m, t, e⟩
  simp only [HealthChecker.specEndpoint]
  by_cases h1 : m = "" <;> by_cases h2 : 0 < t <;> by_cases h3 : 0 < e <;>
    simp [h1, h2, h3]

/-- C19: for a configuration file that is read and parses, loadConfig returns a
config whose Interval is the parsed value when positive and 30 otherwise, whose
endpoints are the parsed endpoints in their order, each with its name and URL
and with method, timeout and expected status defaulted to "GET", 5 and 200; the
webhook settings are the parsed ones; and loading a file that parses to the
returned config returns that config again. -/
theorem loadConfig_applies_defaults (readFile : String → Except GoError String)
    (unmarshal : String → Except GoError HealthChecker.Config) (path data : String)
    (parsed : HealthChecker.Config)
    (hread : readFile path = .ok data) (hparse : unmarshal data = .ok parsed) :
    ∃ cfg, HealthChecker.loadConfig readFile unmarshal path = (some cfg, none) ∧
      cfg.Interval = (if parsed.Interval > 0 then parsed.Interval else 30) ∧
      cfg.Endpoints = parsed.Endpoints.map HealthChecker.specEndpoint ∧
      cfg.Endpoints.length = parsed.Endpoints.length ∧
      cfg.Endpoints.map (fun ep => ep.Name) = parsed.Endpoints.map (fun ep => ep.Name) ∧
      cfg.Endpoints.map (fun ep => ep.URL) = parsed.Endpoints.map (fun ep => ep.URL) ∧
      cfg.Webhook = parsed.Webhook ∧
      HealthChecker.loadConfig readFile (fun _ => .ok cfg) path = (some cfg, none) := by
  refine ⟨_, loadConfig_ok readFile unmarshal path data parsed hread hparse, rfl, rfl, ?_, ?_,
    ?_, rfl, ?_⟩
  · simp
  · simp [List.map_map, Function.comp_def, HealthChecker.specEndpoint]
  · simp [List.map_map, Function.comp_def, HealthChecker.specEndpoint]
  · rw [loadConfig_ok readFile (fun _ => .ok _) path data _ hread rfl]
    simp only [List.map_map, Prod.mk.injEq, Option.some.injEq, and_true,
      HealthChecker.Config.mk.injEq]
    refine ⟨?_, ?_⟩
    · apply List.map_congr_left
      intro ep _
      exact specEndpoint_idem ep
    · by_cases h : parsed.Interval > 0 <;> simp [h]

theorem loadConfig_applies_defaults_witness :
    HealthChecker.loadConfig (fun _ => .ok "endpoints: ...") (fun _ => .ok HealthChecker.sampleConfig)
        "config.yaml"
      = (some { Endpoints := [⟨"api", "http://localhost:8080/health", "GET", 5, 200⟩,
                              ⟨"web", "http://localhost/", "HEAD", 2, 204⟩]
                Interval := 30
                Webhook := ⟨"http://hooks.example/notify", true⟩ }, none) ∧
    ∃ cfg, HealthChecker.loadConfig (fun _ => .ok "endpoints: ...")
        (fun _ => .ok HealthChecker.sampleConfig) "config.yaml" = (some cfg, none) ∧
      cfg.Interval = (if HealthChecker.sampleConfig.Interval > 0
        then HealthChecker.sampleConfig.Interval else 30) ∧
      cfg.Endpoints = HealthChecker.sampleConfig.Endpoints.map HealthChecker.specEndpoint ∧
      cfg.Endpoints.length = HealthChecker.sampleConfig.Endpoints.length ∧
      cfg.Endpoints.map (fun ep => ep.Name)
        = HealthChecker.sampleConfig.Endpoints.map (fun ep => ep.Name) ∧
      cfg.Endpoints.map (fun ep => ep.URL)
        = HealthChecker.sampleConfig.Endpoints.map (fun ep => ep.URL) ∧
      cfg.Webhook = HealthChecker.sampleConfig.Webhook ∧
      HealthChecker.loadConfig (fun _ => .ok "endpoints: ...") (fun _ => .ok cfg) "config.yaml"
        = (some cfg, none) :=
  ⟨by decide,
    loadConfig_applies_defaults (fun _ => .ok "endpoints: ...")
      (fun _ => .ok HealthChecker.sampleConfig) "config.yaml" "endpoints: ..."
      HealthChecker.sampleConfig rfl rfl⟩

/-! ### Coherence of the cache with the primary store -/

theorem key_inj {a b : String} (h : taskCachePrefix ++ a = taskCachePrefix ++ b) : a = b := by
  have hd := congrArg String.data h
  rw [String.data_append, String.data_append] at hd
  exact String.ext (List.append_cancel_left hd)

theorem find?_append_of_some (rows extra : List Task) (id : String) (t : Task)
    (h : rows.find? (fun r => r.ID == id) = some t) :
    (rows ++ extra).find? (fun r => r.ID == id) = some t := by
  rw [List.find?_append, h]
  rfl

theorem find?_filter_ne (rows : List Task) (id id2 : String) (hne : id2 ≠ id) :
    (rows.filter (fun r => !(r.ID == id))).find? (fun r => r.ID == id2)
      = rows.find? (fun r => r.ID == id2) := by
  induction rows with
  | nil => rfl
  | cons r rest ih =>
    cases hb1 : (r.ID == id) with
    | true =>
      have hb2 : (r.ID == id2) = false := by
        rw [beq_eq_false_iff_ne]
        intro h2
        exact hne (h2.symm.trans (eq_of_beq hb1))
      simp only [List.filter_cons, hb1, Bool.not_true, List.find?_cons, hb2]
      exact ih
    | false =>
      simp only [List.filter_cons, hb1, Bool.not_false, if_true, List.find?_cons]
      cases (r.ID == id2) with
      | true => rfl
      | false => exact ih

theorem find?_map_ne (rows : List Task) (f : Task → Task) (id id2 : String)
    (hid : ∀ r, (f r).ID = r.ID) (hfix : ∀ r, r.ID ≠ id → f r = r) (hne : id2 ≠ id) :
    (rows.map f).find? (fun r => r.ID == id2) = rows.find? (fun r => r.ID == id2) := by
  induction rows with
  | nil => rfl
  | cons r rest ih =>
    simp only [List.map_cons, List.find?_cons, hid]
    cases hb2 : (r.ID == id2) with
    | true =>
      have : r.ID ≠ id := fun h => hne ((eq_of_beq hb2).symm.trans h)
      rw [hfix r this]
    | false => exact ih

/-- Coherence survives the removal of the key of `id` when the rows of the other
IDs are kept. -/
theorem coherent_del {js : Codec β} {tasks tasks2 : List Task}
    {cache : List (CacheEntry β)} (id : String) (h : Coherent js tasks cache)
    (hkeep : ∀ t, t.ID ≠ id → tasks.find? (fun r => r.ID == t.ID) = some t →
      tasks2.find? (fun r => r.ID == t.ID) = some t) :
    Coherent js tasks2 (cache.filter (fun e => !(e.key == taskCachePrefix ++ id))) := by
  intro e he
  obtain ⟨he1, he2⟩ := List.mem_filter.mp he
  obtain ⟨t, hu, hk, hf⟩ := h e he1
  refine ⟨t, hu, hk, hkeep t ?_ hf⟩
  intro hid
  rw [hk, hid] at he2
  simp at he2

/-- Coherence survives writing the entry of a task that the table holds, when the
rows of the other IDs are kept. -/
theorem coherent_set {js : Codec β} {tasks tasks2 : List Task}
    {cache : List (CacheEntry β)} (t : Task) (data : β) (ttl : Nat)
    (h : Coherent js tasks cache)
    (hkeep : ∀ t2, t2.ID ≠ t.ID → tasks.find? (fun r => r.ID == t2.ID) = some t2 →
      tasks2.find? (fun r => r.ID == t2.ID) = some t2)
    (hdata : js.unmarshal data = .ok t)
    (hrow : tasks2.find? (fun r => r.ID == t.ID) = some t) :
    Coherent js tasks2 (⟨taskCachePrefix ++ t.ID, data, ttl⟩ ::
      cache.filter (fun e => !(e.key == taskCachePrefix ++ t.ID))) := by
  intro e he
  rcases List.mem_cons.mp he with rfl | he2
  · exact ⟨t, hdata, rfl, hrow⟩
  · exact coherent_del t.ID h hkeep e he2

theorem pgUpdateReturning_tasks (fault : Option String) (w : World β) (id : String)
    (a b c d : String) (t : Time) :
    ((∃ e, (pgUpdateReturning fault w id a b c d t).1 = .error e) ∧
      (pgUpdateReturning fault w id a b c d t).2.tasks = w.tasks) ∨
    (∃ row, (pgUpdateReturning fault w id a b c d t).1 = .ok row ∧ row.ID = id ∧
      (pgUpdateReturning fault w id a b c d t).2.tasks.find? (fun r => r.ID == id) = some row ∧
      ∀ id2, id2 ≠ id →
        (pgUpdateReturning fault w id a b c d t).2.tasks.find? (fun r => r.ID == id2)
          = w.tasks.find? (fun r => r.ID == id2)) := by
  unfold pgUpdateReturning
  cases fault with
  | some m => exact Or.inl ⟨⟨_, rfl⟩, rfl⟩
  | none =>
    simp only [record_tasks]
    cases hfound : List.find? (fun r => r.ID == id)
        (List.map (fun r => if (r.ID == id) = true then
          { r with Title := a, Description := b, Status := c, Priority := d, UpdatedAt := t }
          else r) w.tasks) with
    | none => exact Or.inl ⟨⟨_, rfl⟩, rfl⟩
    | some row =>
      refine Or.inr ⟨row, rfl, ?_, hfound, ?_⟩
      · have := List.find?_some hfound
        simpa using this
      · intro id2 hne
        refine find?_map_ne w.tasks _ id id2 ?_ ?_ hne
        · intro r
          by_cases h : (r.ID == id) = true <;> simp [h]
        · intro r hr
          have : (r.ID == id) = false := by simpa using hr
          simp [this]

/-- The table after the repository Update: unchanged when it fails; when it
succeeds the returned row is the row of `id` and the other rows are kept. -/
theorem pgUpdate_tasks (env : Env) (w : World β) (id : String) (req : TaskUpdateRequest) :
    ((PostgresRepository.Update env w id req).1.2 ≠ none ∧
      (PostgresRepository.Update env w id req).2.tasks = w.tasks) ∨
    (∃ row, (PostgresRepository.Update env w id req).1 = (some row, none) ∧ row.ID = id ∧
      (PostgresRepository.Update env w id req).2.tasks.find? (fun r => r.ID == id) = some row ∧
      ∀ id2, id2 ≠ id →
        (PostgresRepository.Update env w id req).2.tasks.find? (fun r => r.ID == id2)
          = w.tasks.find? (fun r => r.ID == id2)) := by
  have ha := pgGetByID_world env w id
  unfold PostgresRepository.Update
  generalize PostgresRepository.GetByID env w id = gres at ha ⊢
  rcases gres with ⟨⟨r1, e1⟩, wa⟩
  simp only at ha
  subst ha
  cases e1 with
  | some e => cases r1 <;> exact Or.inl ⟨by simp, rfl⟩
  | none =>
    cases r1 with
    | none => exact Or.inl ⟨by simp, rfl⟩
    | some existing =>
      simp only
      generalize hq : pgUpdateReturning _ _ _ _ _ _ _ _ = res
      have hcases := pgUpdateReturning_tasks env.pgUpdate (w.record (.pgSelect id)) id
      rcases res with ⟨_ | row, w2⟩
      · left
        refine ⟨by simp, ?_⟩
        simp only
        have hw := congrArg Prod.snd hq
        simp only at hw
        rcases hcases _ _ _ _ _ with ⟨-, ht⟩ | ⟨row, hr, -⟩
        · rw [hq] at ht
          simpa using ht
        · rw [hq] at hr
          simp at hr
      · right
        rcases hcases _ _ _ _ _ with ⟨⟨e, he⟩, -⟩ | ⟨row2, hr, hid, hfind, hother⟩
        · rw [hq] at he
          simp at he
        · rw [hq] at hr hfind hother
          simp only [Except.ok.injEq] at hr
          subst hr
          exact ⟨_, rfl, hid, hfind, by simpa using hother⟩

theorem pgCreate_tasks (env : Env) (w : World β) (req : TaskCreateRequest) :
    ((PostgresRepository.Create env w req).1.2 ≠ none ∧
      (PostgresRepository.Create env w req).2.tasks = w.tasks) ∨
    (∃ t, (PostgresRepository.Create env w req).1 = (some t, none) ∧
      (PostgresRepository.Create env w req).2.tasks = w.tasks ++ [t] ∧
      w.tasks.any (fun r => r.ID == t.ID) = false) := by
  unfold PostgresRepository.Create pgInsertReturning
  cases env.pgInsert with
  | some m => simp only; split_ifs <;> exact Or.inl ⟨by simp, rfl⟩
  | none =>
    simp only [record_tasks]
    split_ifs with hp hdup hdup
    · exact Or.inl ⟨by simp, rfl⟩
    · exact Or.inr ⟨_, rfl, rfl, by simpa using hdup⟩
    · exact Or.inl ⟨by simp, rfl⟩
    · exact Or.inr ⟨_, rfl, rfl, by simpa using hdup⟩

/-- The table and the cache after Create. -/
theorem Create_world_cases (js : Codec β) (env : Env) (w : World β) (req : TaskCreateRequest) :
    ((TaskService.Create js env w req).2.tasks = w.tasks ∧
      (TaskService.Create js env w req).2.cache = w.cache) ∨
    (∃ t, (TaskService.Create js env w req).2.tasks = w.tasks ++ [t] ∧
      w.tasks.any (fun r => r.ID == t.ID) = false ∧
      (TaskService.Create js env w req).2.cache = cacheAfterSet js env w.cache t) := by
  have hf := (pgCreate_frame env w req).1.1
  have hc := pgCreate_tasks env w req
  unfold TaskService.Create
  generalize PostgresRepository.Create env w req = res at hf hc ⊢
  rcases res with ⟨⟨r, e⟩, w1⟩
  simp only at hf hc
  rcases hc with ⟨he, ht⟩ | ⟨t, hr, ht, hfresh⟩
  · cases e with
    | none => exact absurd rfl he
    | some e => cases r <;> exact Or.inl ⟨ht, hf⟩
  · simp only [Prod.mk.injEq] at hr
    obtain ⟨rfl, rfl⟩ := hr
    right
    refine ⟨t, ?_, hfresh, ?_⟩
    · simp only
      have hs := (SetTask_world js env w1 t).1
      generalize RedisCache.SetTask js env w1 t = sres at hs ⊢
      rcases sres with ⟨e2, w2⟩
      simp only at hs
      cases e2 <;> simp [World.spawn, World.warn, World.record, hs, ht]
    · simp only
      have hs := (SetTask_world js env w1 t).2
      generalize RedisCache.SetTask js env w1 t = sres at hs ⊢
      rcases sres with ⟨e2, w2⟩
      simp only at hs
      cases e2 <;> simp [World.spawn, World.warn, World.record, hs, hf]

/-- The cache after GetByID: unchanged, or the row of the table written to it. -/
theorem GetByID_cache_cases (js : Codec β) (env : Env) (w : World β) (id : String) :
    (TaskService.GetByID js env w id).2.cache = w.cache ∨
    (∃ row, w.tasks.find? (fun r => r.ID == id) = some row ∧
      (TaskService.GetByID js env w id).2.cache = cacheAfterSet js env w.cache row) := by
  have h2 := GetTask_world js env w id
  unfold TaskService.GetByID
  generalize RedisCache.GetTask js env w id = gres at h2 ⊢
  rcases gres with ⟨⟨c, err⟩, w1⟩
  simp only at h2
  subst h2
  cases c with
  | some t => left; cases err <;> rfl
  | none =>
    simp only
    unfold PostgresRepository.GetByID pgSelectByID
    cases env.pgSelect with
    | some m => left; cases err <;> rfl
    | none =>
      simp only
      cases err with
      | none =>
        simp only [Option.isSome_none, Bool.false_eq_true, if_false, record_tasks]
        cases hrow : w.tasks.find? (fun r => r.ID == id) with
        | none => left; rfl
        | some row =>
          right
          refine ⟨row, rfl, ?_⟩
          simp only
          have hs := (SetTask_world js env
            ((w.record (.redisGet (taskCachePrefix ++ id))).record (.pgSelect id)) row).2
          generalize RedisCache.SetTask js env _ row = sres at hs ⊢
          rcases sres with ⟨e2, w4⟩
          simp only at hs
          cases e2 <;> simp [World.warn, World.record, hs]
      | some e =>
        simp only [Option.isSome_some, if_true, record_tasks, warn_tasks]
        cases hrow : w.tasks.find? (fun r => r.ID == id) with
        | none => left; rfl
        | some row =>
          right
          refine ⟨row, rfl, ?_⟩
          simp only
          have hs := (SetTask_world js env
            (((w.record (.redisGet (taskCachePrefix ++ id))).warn "cache lookup failed").record
              (.pgSelect id)) row).2
          generalize RedisCache.SetTask js env _ row = sres at hs ⊢
          rcases sres with ⟨e2, w4⟩
          simp only at hs
          cases e2 <;> simp [World.warn, World.record, hs]

theorem pgDelete_tasks (env : Env) (w : World β) (id : String)
    (h : (PostgresRepository.Delete env w id).1 ≠ none) :
    (PostgresRepository.Delete env w id).2.tasks = w.tasks := by
  unfold PostgresRepository.Delete pgExecDelete at h ⊢
  revert h
  cases env.pgDelete with
  | some m => intro _; rfl
  | none =>
    intro h
    simp only [record_tasks] at h ⊢
    split_ifs at h ⊢ with hz
    · simp only
      rw [List.filter_eq_self]
      intro r hr
      have := List.countP_eq_zero.mp hz r hr
      simpa using this
    · simp at h

/-- The table and the cache after Delete. -/
theorem Delete_world_cases (env : Env) (w : World β) (id : String) :
    ((TaskService.Delete env w id).2.tasks = w.tasks ∧
      (TaskService.Delete env w id).2.cache = w.cache) ∨
    ((TaskService.Delete env w id).2.tasks = w.tasks.filter (fun r => !(r.ID == id)) ∧
      (TaskService.Delete env w id).2.cache = cacheAfterDel env w.cache id) := by
  by_cases h : (TaskService.Delete env w id).1 = none
  · exact Or.inr (Delete_ok_world env w id h)
  · left
    have hrepo : (PostgresRepository.Delete env (PostgresRepository.GetByID env w id).2 id).1
        ≠ none := by
      intro hn
      rw [Delete_result_repo, hn] at h
      exact h rfl
    obtain ⟨-, hw⟩ := Delete_of_store_error env w id hrepo
    obtain ⟨⟨hc, -, -⟩, -⟩ := pgDelete_frame env (PostgresRepository.GetByID env w id).2 id
    rw [hw, pgDelete_tasks env _ id hrepo, hc, pgGetByID_world]
    exact ⟨rfl, rfl⟩

/-- The table and the cache after Update. -/
theorem Update_world_cases (js : Codec β) (env : Env) (w : World β) (id : String)
    (req : TaskUpdateRequest) :
    ((TaskService.Update js env w id req).2.tasks = w.tasks ∧
      (TaskService.Update js env w id req).2.cache = w.cache) ∨
    (∃ row, row.ID = id ∧
      (TaskService.Update js env w id req).2.tasks.find? (fun r => r.ID == id) = some row ∧
      (∀ id2, id2 ≠ id →
        (TaskService.Update js env w id req).2.tasks.find? (fun r => r.ID == id2)
          = w.tasks.find? (fun r => r.ID == id2)) ∧
      (TaskService.Update js env w id req).2.cache
        = cacheAfterSet js env (cacheAfterDel env w.cache id) row) := by
  obtain ⟨⟨hc, -, -⟩, -⟩ := pgUpdate_frame env w id req
  rcases pgUpdate_tasks env w id req with ⟨he, ht⟩ | ⟨row, hr, hid, hfind, hother⟩
  · left
    obtain ⟨-, -, hw⟩ := Update_of_store_error js env w id req he
    rw [hw]
    exact ⟨ht, hc⟩
  · right
    obtain ⟨-, htasks, hcache⟩ := Update_service js env w id req row hr
    refine ⟨row, hid, ?_, ?_, ?_⟩
    · rw [htasks]; exact hfind
    · intro id2 hne
      rw [htasks]; exact hother id2 hne
    · rw [hcache, hc]

/-- One call made with the cache reachable keeps the cache coherent. -/
theorem Coherent_step (js : Codec β)
    (hjson : ∀ t, ∃ data, js.marshal t = .ok data ∧ js.unmarshal data = .ok t)
    (w : World β) (c : Env × Op) (hup : c.1.cacheUp)
    (h : Coherent js w.tasks w.cache) :
    Coherent js (step js w c).tasks (step js w c).cache := by
  obtain ⟨env, op⟩ := c
  obtain ⟨-, hset, hdel⟩ := hup
  simp only at hset hdel
  have hsetEq : ∀ (cache : List (CacheEntry β)) (t : Task), ∃ data,
      js.unmarshal data = .ok t ∧
      cacheAfterSet js env cache t = ⟨taskCachePrefix ++ t.ID, data, taskCacheTTL⟩ ::
        cache.filter (fun e => !(e.key == taskCachePrefix ++ t.ID)) := by
    intro cache t
    obtain ⟨data, hm, hu⟩ := hjson t
    exact ⟨data, hu, by simp [cacheAfterSet, hm, hset]⟩
  have hdelEq : ∀ (cache : List (CacheEntry β)) (id : String),
      cacheAfterDel env cache id
        = cache.filter (fun e => !(e.key == taskCachePrefix ++ id)) := by
    intro cache id
    simp [cacheAfterDel, hdel]
  cases op with
  | create req =>
    show Coherent js (TaskService.Create js env w req).2.tasks
      (TaskService.Create js env w req).2.cache
    rcases Create_world_cases js env w req with ⟨ht, hc⟩ | ⟨t, ht, hfresh, hc⟩
    · rw [ht, hc]; exact h
    · obtain ⟨data, hu, hEq⟩ := hsetEq w.cache t
      rw [ht, hc, hEq]
      exact coherent_set t data taskCacheTTL h
        (fun t2 _ h2 => find?_append_of_some _ _ _ _ h2) hu (find?_append_fresh _ _ hfresh)
  | get id =>
    show Coherent js (TaskService.GetByID js env w id).2.tasks
      (TaskService.GetByID js env w id).2.cache
    rw [GetByID_tasks]
    rcases GetByID_cache_cases js env w id with hc | ⟨row, hrow, hc⟩
    · rw [hc]; exact h
    · obtain ⟨data, hu, hEq⟩ := hsetEq w.cache row
      have hid : row.ID = id := by
        have := List.find?_some hrow
        simpa using this
      rw [hc, hEq]
      exact coherent_set row data taskCacheTTL h (fun _ _ h2 => h2) hu (by rw [hid]; exact hrow)
  | update id req =>
    show Coherent js (TaskService.Update js env w id req).2.tasks
      (TaskService.Update js env w id req).2.cache
    rcases Update_world_cases js env w id req with ⟨ht, hc⟩ | ⟨row, hid, hfind, hother, hc⟩
    · rw [ht, hc]; exact h
    · obtain ⟨data, hu, hEq⟩ := hsetEq (cacheAfterDel env w.cache id) row
      rw [hc, hEq, hdelEq]
      have hd : Coherent js (TaskService.Update js env w id req).2.tasks
          (w.cache.filter (fun e => !(e.key == taskCachePrefix ++ id))) :=
        coherent_del id h (fun t hne h2 => by rw [hother t.ID hne]; exact h2)
      exact coherent_set row data taskCacheTTL hd (fun _ _ h2 => h2) hu
        (by rw [hid]; exact hfind)
  | delete id =>
    show Coherent js (TaskService.Delete env w id).2.tasks (TaskService.Delete env w id).2.cache
    rcases Delete_world_cases env w id with ⟨ht, hc⟩ | ⟨ht, hc⟩
    · rw [ht, hc]; exact h
    · rw [ht, hc, hdelEq]
      exact coherent_del id h (fun t hne h2 => by rw [find?_filter_ne _ _ _ hne]; exact h2)

theorem Coherent_run (js : Codec β)
    (hjson : ∀ t, ∃ data, js.marshal t = .ok data ∧ js.unmarshal data = .ok t)
    (calls : List (Env × Op)) (w : World β) (hup : ∀ c ∈ calls, c.1.cacheUp)
    (h : Coherent js w.tasks w.cache) :
    Coherent js (run js w calls).tasks (run js w calls).cache := by
  induction calls generalizing w with
  | nil => exact h
  | cons c rest ih =>
    have hc := Coherent_step js hjson w c (hup c (List.mem_cons_self _ _)) h
    exact ih (step js w c) (fun c2 h2 => hup c2 (List.mem_cons_of_mem _ h2)) hc

/-- C17: from an empty cache, after any sequence of Create, GetByID, Update and
Delete calls made one at a time with every Redis call succeeding (and JSON
encoding every task to bytes that decode to it), for every id the cache holds no
entry under "task:" + id, or holds an entry that decodes to the row the primary
store currently holds for id. -/
theorem cache_coherent_after_sequential_runs (js : Codec β) (w : World β)
    (calls : List (Env × Op))
    (hempty : w.cache = [])
    (hjson : ∀ t, ∃ data, js.marshal t = .ok data ∧ js.unmarshal data = .ok t)
    (hup : ∀ c ∈ calls, c.1.cacheUp) (id : String) :
    (run js w calls).cache.find? (fun e => e.key == taskCachePrefix ++ id) = none ∨
    ∃ e t, (run js w calls).cache.find? (fun e => e.key == taskCachePrefix ++ id) = some e ∧
      js.unmarshal e.data = .ok t ∧
      (run js w calls).tasks.find? (fun r => r.ID == id) = some t := by
  have h0 : Coherent js w.tasks w.cache := by
    intro e he
    rw [hempty] at he
    cases he
  have hco := Coherent_run js hjson calls w hup h0
  cases hfind : (run js w calls).cache.find? (fun e => e.key == taskCachePrefix ++ id) with
  | none => exact Or.inl rfl
  | some e =>
    right
    obtain ⟨t, hu, hk, hrow⟩ := hco e (List.mem_of_find?_eq_some hfind)
    have hkey : e.key = taskCachePrefix ++ id := by
      have := List.find?_some hfind
      simpa using this
    have hid : t.ID = id := key_inj (hk.symm.trans hkey)
    exact ⟨e, t, rfl, hu, by rw [← hid]; exact hrow⟩

theorem cache_coherent_after_sequential_runs_witness :
    (run plainCodec emptyWorld sampleRun).tasks.find? (fun r => r.ID == uuidString 7)
      = some ⟨uuidString 7, "Write spec", "", "completed", "high", 100, 200⟩ ∧
    ((run plainCodec emptyWorld sampleRun).cache.find?
        (fun e => e.key == taskCachePrefix ++ uuidString 7) = none ∨
      ∃ e t, (run plainCodec emptyWorld sampleRun).cache.find?
          (fun e => e.key == taskCachePrefix ++ uuidString 7) = some e ∧
        plainCodec.unmarshal e.data = .ok t ∧
        (run plainCodec emptyWorld sampleRun).tasks.find? (fun r => r.ID == uuidString 7)
          = some t) :=
  ⟨by decide,
    cache_coherent_after_sequential_runs plainCodec emptyWorld sampleRun rfl
      (fun t => ⟨t, rfl, rfl⟩)
      (fun c hc => by
        simp only [sampleRun, List.mem_cons, List.mem_singleton, List.not_mem_nil, or_false] at hc
        rcases hc with rfl | rfl | rfl <;> exact ⟨rfl, rfl, rfl⟩)
      (uuidString 7)⟩

end TaskManager
